import Mathlib

/-!
# NetworkManager named manager (`src/named-manager/nm-named-manager.c`)

A shallow embedding of the resolv.conf merge-and-publish engine: the registry
of IP4 configurations (`NMNamedManagerPrivate`), the merge of all active
configurations into one composite (`merge_one_ip4_config`), the rendering of
the composite (`compute_nameservers` and the body of `rewrite_resolv_conf`)
and the publish protocol (temporary file, rename, notification).

Modelling conventions.

* An `NMIP4Config *` is a `Ptr` (a natural number, `NULL = 0`); pointer
  comparison is equality of numbers.  The objects pointed to live in a heap
  `Ptr → NMIP4Config`, which the manager only reads.
* C strings are `String`; a `GString` being built is the `String` built so far.
* Every call into libc or into the rest of NetworkManager whose outcome the
  code inspects is answered by an `Env`; every such call is recorded, in
  order, in a trace of `Event`s.
* `guint32` / `int` counters are natural numbers: they count the entries of
  lists, far below `2^31`.
* `g_return_val_if_fail` checks are compiled in (the glib default).
-/

namespace NamedManager

/-! ## Data model -/

/-- An `NMIP4Config *`.  Two records are the same record iff the pointers are equal. -/
abbrev Ptr := Nat

/-- The null pointer. -/
def NULL : Ptr := 0

/-- Modelled from the spec: `NMIP4Config` is declared in `nm-ip4-config.h`, which is
not part of the sources at hand.  The spec describes it as three ordered sequences:
nameserver addresses (`guint32`), domain suffixes and explicit search domains. -/
structure NMIP4Config where
  nameservers : List Nat
  domains : List String
  searches : List String
deriving DecidableEq, Repr

/-- Modelled from the spec: `nm_ip4_config_new ()` gives a record with three empty sequences. -/
def nm_ip4_config_new : NMIP4Config := ⟨[], [], []⟩

/-- Modelled from the spec: number of nameserver entries. -/
def nm_ip4_config_get_num_nameservers (config : NMIP4Config) : Nat :=
  config.nameservers.length

/-- Modelled from the spec: the `i`-th nameserver entry (`0` when out of range). -/
def nm_ip4_config_get_nameserver (config : NMIP4Config) (i : Nat) : Nat :=
  config.nameservers.getD i 0

/-- Modelled from the spec: append one nameserver entry. -/
def nm_ip4_config_add_nameserver (config : NMIP4Config) (nameserver : Nat) : NMIP4Config :=
  { config with nameservers := config.nameservers ++ [nameserver] }

/-- Modelled from the spec: number of domain entries. -/
def nm_ip4_config_get_num_domains (config : NMIP4Config) : Nat :=
  config.domains.length

/-- Modelled from the spec: the `i`-th domain entry (the empty string when out of range). -/
def nm_ip4_config_get_domain (config : NMIP4Config) (i : Nat) : String :=
  config.domains.getD i ""

/-- Modelled from the spec: append one domain entry. -/
def nm_ip4_config_add_domain (config : NMIP4Config) (domain : String) : NMIP4Config :=
  { config with domains := config.domains ++ [domain] }

/-- Modelled from the spec: number of search entries. -/
def nm_ip4_config_get_num_searches (config : NMIP4Config) : Nat :=
  config.searches.length

/-- Modelled from the spec: the `i`-th search entry (the empty string when out of range). -/
def nm_ip4_config_get_search (config : NMIP4Config) (i : Nat) : String :=
  config.searches.getD i ""

/-- Modelled from the spec: append one search entry. -/
def nm_ip4_config_add_search (config : NMIP4Config) (search : String) : NMIP4Config :=
  { config with searches := config.searches ++ [search] }

/-- Modelled from the spec: `NMNamedIPConfigType` is declared in `nm-named-manager.h`,
which is not part of the sources at hand.  The spec names three roles; the third
(`PLAIN` in the spec) is the one that falls into the `default:` branch of the switch
in `nm_named_manager_add_ip4_config`. -/
inductive NMNamedIPConfigType where
  | NM_NAMED_IP_CONFIG_TYPE_DEFAULT
  | NM_NAMED_IP_CONFIG_TYPE_BEST_DEVICE
  | NM_NAMED_IP_CONFIG_TYPE_VPN
deriving DecidableEq, Repr

open NMNamedIPConfigType

/-- The private part of the manager object (`struct NMNamedManagerPrivate`). -/
structure NMNamedManagerPrivate where
  vpn_config : Ptr
  device_config : Ptr
  configs : List Ptr
  disposed : Bool
deriving DecidableEq, Repr

/-- The private part of a freshly created manager: glib zero-fills the instance,
and `nm_named_manager_init` does nothing. -/
def nm_named_manager_init : NMNamedManagerPrivate :=
  { vpn_config := NULL, device_config := NULL, configs := [], disposed := false }

/-! ## glib singly linked lists, as used on `configs` -/

/-- The call `g_slist_find (list, data)`, used by the code only as a truth value. -/
def g_slist_find (list : List Ptr) (data : Ptr) : Bool :=
  decide (data ∈ list)

/-- The call `g_slist_append (list, data)`. -/
def g_slist_append (list : List Ptr) (data : Ptr) : List Ptr :=
  list ++ [data]

/-- The call `g_slist_remove (list, data)`: removes the first node holding `data`. -/
def g_slist_remove (list : List Ptr) (data : Ptr) : List Ptr :=
  list.erase data

/-! ## Merge engine -/

/-- The C loop `for (i = 0; i < num; i++) body`, on a state threaded through the body. -/
def for_loop {σ : Type} (num : Nat) (body : Nat → σ → σ) (init : σ) : σ :=
  (List.range num).foldl (fun s i => body i s) init

/-- The function `merge_one_ip4_config (dst, src)`; the updated `dst` is returned. -/
def merge_one_ip4_config (dst src : NMIP4Config) : NMIP4Config :=
  let num := nm_ip4_config_get_num_nameservers src
  let dst := for_loop num
    (fun i dst => nm_ip4_config_add_nameserver dst (nm_ip4_config_get_nameserver src i)) dst
  let num_domains := nm_ip4_config_get_num_domains src
  let dst := for_loop num_domains
    (fun i dst => nm_ip4_config_add_domain dst (nm_ip4_config_get_domain src i)) dst
  let num := nm_ip4_config_get_num_searches src
  if num > 0 then
    for_loop num
      (fun i dst => nm_ip4_config_add_search dst (nm_ip4_config_get_search src i)) dst
  else
    for_loop num_domains
      (fun i dst => nm_ip4_config_add_search dst (nm_ip4_config_get_domain src i)) dst

/-- The composite built inside `rewrite_resolv_conf` (source lines 199-215): a fresh
record into which the VPN record, the best-device record and then every other record
of `configs` are merged. -/
def build_composite (heap : Ptr → NMIP4Config) (priv : NMNamedManagerPrivate) : NMIP4Config :=
  let composite := nm_ip4_config_new
  let composite :=
    if priv.vpn_config ≠ NULL then merge_one_ip4_config composite (heap priv.vpn_config)
    else composite
  let composite :=
    if priv.device_config ≠ NULL then merge_one_ip4_config composite (heap priv.device_config)
    else composite
  priv.configs.foldl
    (fun composite config =>
      if config = priv.vpn_config ∨ config = priv.device_config then composite
      else merge_one_ip4_config composite (heap config))
    composite

/-! ## Renderer -/

/-- The gettext macro `_()`: no translation catalogue is loaded, the message is
returned as it is. -/
def gettext (msgid : String) : String := msgid

/-- The libc call `inet_ntop (AF_INET, &addr, buf, ADDR_BUF_LEN)`: the four bytes of
`s_addr` in memory order, each in decimal, separated by dots.  The bytes are taken
lowest-order first, as on a little-endian host holding the address in network byte
order. -/
def inet_ntop (s_addr : Nat) : String :=
  toString (s_addr % 256) ++ "." ++ toString (s_addr / 256 % 256) ++ "."
    ++ toString (s_addr / 65536 % 256) ++ "." ++ toString (s_addr / 16777216 % 256)

/-- The function `compute_nameservers (config)`; `none` is the `NULL` returned for a
record without nameservers.  (`g_malloc0` aborts instead of returning `NULL`, so the
`continue` of the loop is never taken.) -/
def compute_nameservers (config : NMIP4Config) : Option String :=
  let num := nm_ip4_config_get_num_nameservers config
  if num = 0 then none
  else
    some (for_loop num
      (fun i str =>
        let buf := inet_ntop (nm_ip4_config_get_nameserver config i)
        let str :=
          if i = 3 then
            ((((str ++ "\n# ")
              ++ gettext "NOTE: the glibc resolver does not support more than 3 nameservers.")
              ++ "\n# ")
              ++ gettext "The nameservers listed below may not be recognized.").push '\n'
          else str
        ((str ++ "nameserver ") ++ buf).push '\n')
      "")

/-- The search directive computed inside `rewrite_resolv_conf` (source lines 237-258);
`none` is the `NULL` left in `searches` when neither branch is taken. -/
def compute_searches (composite : NMIP4Config) : Option String :=
  let num_domains := nm_ip4_config_get_num_domains composite
  let num_searches := nm_ip4_config_get_num_searches composite
  if num_searches = 0 ∧ num_domains > 0 then
    let str := for_loop num_domains
      (fun i str => (str.push ' ') ++ nm_ip4_config_get_domain composite i) "search"
    some (str ++ "\n\n")
  else if num_searches > 0 then
    let str := for_loop num_searches
      (fun i str => (str.push ' ') ++ nm_ip4_config_get_search composite i) "search"
    some (str ++ "\n\n")
  else none

/-- The domain directive computed inside `rewrite_resolv_conf` (source lines 260-267);
`none` is the `NULL` left in `domain` when the composite has no domain. -/
def compute_domain (composite : NMIP4Config) : Option String :=
  let num_domains := nm_ip4_config_get_num_domains composite
  if num_domains > 0 then
    some (("domain " ++ nm_ip4_config_get_domain composite 0) ++ "\n\n")
  else none

/-- The text of the first `fprintf` of `rewrite_resolv_conf`. -/
def resolv_conf_header : String := "# generated by NetworkManager, do not edit!\n\n"

/-- The text of the second `fprintf` of `rewrite_resolv_conf`, format `"%s%s%s\n"`. -/
def resolv_conf_body (composite : NMIP4Config) : String :=
  (compute_domain composite).getD "" ++ (compute_searches composite).getD ""
    ++ (compute_nameservers composite).getD "" ++ "\n"

/-- Everything `rewrite_resolv_conf` writes to the temporary file when no write fails. -/
def resolv_conf_text (composite : NMIP4Config) : String :=
  resolv_conf_header ++ resolv_conf_body composite

/-! ## Publisher -/

/-- The macro `RESOLV_CONF`. -/
def RESOLV_CONF : String := "/etc/resolv.conf"

/-- Modelled from the spec: the error codes of the `NM_NAMED_MANAGER_ERROR` domain are
declared in `nm-named-manager.h`, which is not part of the sources at hand.  The spec
lists three kinds (System, InvalidArgument, NotFound); the code at hand only ever
raises the first. -/
inductive NMNamedManagerError where
  | NM_NAMED_MANAGER_ERROR_SYSTEM
  | NM_NAMED_MANAGER_ERROR_INVALID_ARGUMENT
  | NM_NAMED_MANAGER_ERROR_NOT_FOUND
deriving DecidableEq, Repr

open NMNamedManagerError

/-- A `GError` of the domain `NM_NAMED_MANAGER_ERROR`. -/
structure GError where
  code : NMNamedManagerError
  message : String
deriving DecidableEq, Repr

/-- The call `g_set_error (error, NM_NAMED_MANAGER_ERROR, code, ...)` on the value of
`*error`: glib stores the new error only when none is stored yet. -/
def g_set_error (error : Option GError) (code : NMNamedManagerError) (message : String) :
    Option GError :=
  match error with
  | none => some { code := code, message := message }
  | some e => some e

/-- What the world outside answers during one run of `rewrite_resolv_conf`.  For a
libc call, `none` is success and `some e` is failure with `e` the text of
`g_strerror (errno)`.  The field `torn` is what a failed write or close leaves in the
temporary file. -/
structure Env where
  should_modify_resolv_conf : Bool
  fopen : Option String
  fprintf_header : Option String
  fprintf_body : Option String
  fclose : Option String
  rename : Option String
  torn : String
deriving DecidableEq, Repr

/-- The two files the manager works on: `RESOLV_CONF` and `RESOLV_CONF ".tmp"`;
`none` is a file that does not exist. -/
structure FileSystem where
  resolv_conf : Option String
  resolv_conf_tmp : Option String
deriving DecidableEq, Repr

/-- The calls to the outside that the code makes, as recorded in a trace. -/
inductive Event where
  | nm_system_should_modify_resolv_conf
  | nm_info (message : String)
  | fopen
  | fprintf (text : String)
  | fclose
  | rename
  | nm_system_update_dns
  | nm_warning (message : String)
deriving DecidableEq, Repr

/-- What one run of `rewrite_resolv_conf` leaves: the returned value, `*error`, the
files and the calls made. -/
structure RewriteResult where
  ret : Bool
  error : Option GError
  fs : FileSystem
  trace : List Event
deriving DecidableEq, Repr

/-- A successful `fprintf` to the temporary file. -/
def fs_write (fs : FileSystem) (text : String) : FileSystem :=
  { fs with resolv_conf_tmp := some (fs.resolv_conf_tmp.getD "" ++ text) }

/-- The function `rewrite_resolv_conf (mgr, error)`.  Both callers pass the address of
a local `GError *` that is `NULL`, so the two `g_return_val_if_fail` checks pass. -/
def rewrite_resolv_conf (env : Env) (heap : Ptr → NMIP4Config) (fs : FileSystem)
    (priv : NMNamedManagerPrivate) : RewriteResult :=
  let error : Option GError := none
  let trace := [Event.nm_system_should_modify_resolv_conf]
  if !env.should_modify_resolv_conf then
    { ret := true, error := error, fs := fs,
      trace := trace ++ [Event.nm_info
        "DHCP returned name servers but system has disabled dynamic modification!"] }
  else
  let trace := trace ++ [Event.fopen]
  match env.fopen with
  | some errno =>
    { ret := false,
      error := g_set_error error NM_NAMED_MANAGER_ERROR_SYSTEM
        ("Could not open " ++ RESOLV_CONF ++ ": " ++ errno ++ "\n"),
      fs := fs, trace := trace }
  | none =>
  let fs := { fs with resolv_conf_tmp := some "" }
  let trace := trace ++ [Event.fprintf resolv_conf_header]
  match env.fprintf_header with
  | some errno =>
    { ret := false,
      error := g_set_error error NM_NAMED_MANAGER_ERROR_SYSTEM
        ("Could not write " ++ RESOLV_CONF ++ ": " ++ errno ++ "\n"),
      fs := { fs with resolv_conf_tmp := some env.torn },
      trace := trace ++ [Event.fclose] }
  | none =>
  let fs := fs_write fs resolv_conf_header
  let composite := build_composite heap priv
  let searches := compute_searches composite
  let domain := compute_domain composite
  let nameservers := compute_nameservers composite
  let text := domain.getD "" ++ searches.getD "" ++ nameservers.getD "" ++ "\n"
  let trace := trace ++ [Event.fprintf text]
  let error :=
    match env.fprintf_body with
    | some errno =>
      g_set_error error NM_NAMED_MANAGER_ERROR_SYSTEM
        ("Could not write to " ++ RESOLV_CONF ++ ": " ++ errno ++ "\n")
    | none => error
  let fs :=
    match env.fprintf_body with
    | some _ => { fs with resolv_conf_tmp := some env.torn }
    | none => fs_write fs text
  let trace := trace ++ [Event.fclose]
  let error :=
    match env.fclose with
    | some errno =>
      if error = none then
        g_set_error error NM_NAMED_MANAGER_ERROR_SYSTEM
          ("Could not close " ++ RESOLV_CONF ++ ": " ++ errno ++ "\n")
      else error
    | none => error
  let fs :=
    match env.fclose with
    | some _ => { fs with resolv_conf_tmp := some env.torn }
    | none => fs
  if error = none then
    let trace := trace ++ [Event.rename]
    match env.rename with
    | some errno =>
      let error := g_set_error error NM_NAMED_MANAGER_ERROR_SYSTEM
        ("Could not replace " ++ RESOLV_CONF ++ ": " ++ errno ++ "\n")
      { ret := error.isNone, error := error, fs := fs, trace := trace }
    | none =>
      { ret := error.isNone, error := error,
        fs := { resolv_conf := fs.resolv_conf_tmp, resolv_conf_tmp := none },
        trace := trace ++ [Event.nm_system_update_dns] }
  else
    { ret := error.isNone, error := error, fs := fs, trace := trace }

/-! ## Source registry -/

/-- What a call of the public interface leaves: the returned value, the private part
of the manager, the files and the calls made to the outside. -/
structure CallResult where
  ret : Bool
  priv : NMNamedManagerPrivate
  fs : FileSystem
  trace : List Event
deriving DecidableEq, Repr

/-- The text `error ? error->message : "(none)"` of the two warnings. -/
def error_message (error : Option GError) : String :=
  match error with
  | some e => e.message
  | none => "(none)"

/-- The function `nm_named_manager_add_ip4_config (mgr, config, cfg_type)`; the
manager is the (non-null) object whose private part is `priv`. -/
def nm_named_manager_add_ip4_config (env : Env) (heap : Ptr → NMIP4Config)
    (fs : FileSystem) (priv : NMNamedManagerPrivate) (config : Ptr)
    (cfg_type : NMNamedIPConfigType) : CallResult :=
  if config = NULL then { ret := false, priv := priv, fs := fs, trace := [] }
  else
  let priv :=
    match cfg_type with
    | NM_NAMED_IP_CONFIG_TYPE_VPN => { priv with vpn_config := config }
    | NM_NAMED_IP_CONFIG_TYPE_BEST_DEVICE => { priv with device_config := config }
    | _ => priv
  let priv :=
    if !g_slist_find priv.configs config then
      { priv with configs := g_slist_append priv.configs config }
    else priv
  let r := rewrite_resolv_conf env heap fs priv
  let trace :=
    if !r.ret then
      r.trace ++ [Event.nm_warning
        ("Could not commit DNS changes.  Error: '" ++ error_message r.error ++ "'")]
    else r.trace
  { ret := true, priv := priv, fs := r.fs, trace := trace }

/-- The function `nm_named_manager_remove_ip4_config (mgr, config)`; the manager is
the (non-null) object whose private part is `priv`. -/
def nm_named_manager_remove_ip4_config (env : Env) (heap : Ptr → NMIP4Config)
    (fs : FileSystem) (priv : NMNamedManagerPrivate) (config : Ptr) : CallResult :=
  if config = NULL then { ret := false, priv := priv, fs := fs, trace := [] }
  else if !g_slist_find priv.configs config then
    { ret := false, priv := priv, fs := fs, trace := [] }
  else
  let priv := { priv with configs := g_slist_remove priv.configs config }
  let priv := if config = priv.vpn_config then { priv with vpn_config := NULL } else priv
  let priv := if config = priv.device_config then { priv with device_config := NULL } else priv
  let r := rewrite_resolv_conf env heap fs priv
  let trace :=
    if !r.ret then
      r.trace ++ [Event.nm_warning
        ("Could not commit DNS changes.  Error: '" ++ error_message r.error ++ "'")]
    else r.trace
  { ret := true, priv := priv, fs := r.fs, trace := trace }

/-! ## Sequences of calls -/

/-- One call of the public interface. -/
inductive Call where
  | add_ip4_config (config : Ptr) (cfg_type : NMNamedIPConfigType)
  | remove_ip4_config (config : Ptr)
deriving DecidableEq, Repr

/-- One call, made in the world `env`, on a manager and the files. -/
def do_call (heap : Ptr → NMIP4Config) (s : NMNamedManagerPrivate × FileSystem)
    (c : Call × Env) : NMNamedManagerPrivate × FileSystem :=
  match c.1 with
  | Call.add_ip4_config config cfg_type =>
    let r := nm_named_manager_add_ip4_config c.2 heap s.2 s.1 config cfg_type
    (r.priv, r.fs)
  | Call.remove_ip4_config config =>
    let r := nm_named_manager_remove_ip4_config c.2 heap s.2 s.1 config
    (r.priv, r.fs)

/-- A sequence of calls, each in its own world, from a given manager and files. -/
def run (heap : Ptr → NMIP4Config) (s : NMNamedManagerPrivate × FileSystem)
    (calls : List (Call × Env)) : NMNamedManagerPrivate × FileSystem :=
  calls.foldl (do_call heap) s

/-- A private part that some sequence of calls on a fresh manager leaves. -/
def Reachable (heap : Ptr → NMIP4Config) (priv : NMNamedManagerPrivate) : Prop :=
  ∃ (fs : FileSystem) (calls : List (Call × Env)),
    (run heap (nm_named_manager_init, fs) calls).1 = priv

/-! ## Lines of a text -/

/-- The lines of a text, as lists of characters: every newline ends a line, and what
follows the last newline is a line when it is not empty. -/
def lines_of_chars : List Char → List (List Char)
  | [] => []
  | c :: cs =>
    if c = '\n' then [] :: lines_of_chars cs
    else
      match lines_of_chars cs with
      | [] => [[c]]
      | l :: ls => (c :: l) :: ls

/-- The lines of a text. -/
def lines (text : String) : List String :=
  (lines_of_chars text.data).map String.mk

/-- Whether a line starts with a given keyword. -/
def starts_with (keyword line : String) : Bool :=
  decide (keyword.data <+: line.data)

/-- An example heap: record `p` has nameserver `p`, domain `d<p>` and no searches,
except record `2`, which has the two searches `a.com` and `b.com`. -/
def example_heap (p : Ptr) : NMIP4Config :=
  { nameservers := [p],
    domains := ["d" ++ toString p],
    searches := if p = 2 then ["a.com", "b.com"] else [] }

/-- An example world in which every call succeeds. -/
def env_ok : Env :=
  { should_modify_resolv_conf := true, fopen := none, fprintf_header := none,
    fprintf_body := none, fclose := none, rename := none, torn := "" }

/-- An example of files: nothing exists yet. -/
def fs_empty : FileSystem := { resolv_conf := none, resolv_conf_tmp := none }

/-! ## Closed forms used in the statements -/

/-- What one record contributes to the search list of the composite. -/
def search_contribution (src : NMIP4Config) : List String :=
  if src.searches = [] then src.domains else src.searches

/-- The records merged by `build_composite`, in the order in which they are merged. -/
def merge_order (priv : NMNamedManagerPrivate) : List Ptr :=
  (if priv.vpn_config ≠ NULL then [priv.vpn_config] else [])
    ++ (if priv.device_config ≠ NULL then [priv.device_config] else [])
    ++ priv.configs.filter
        (fun config => !decide (config = priv.vpn_config ∨ config = priv.device_config))

/-- Merging a list of records, one after the other, into a record. -/
def merge_all (heap : Ptr → NMIP4Config) (dst : NMIP4Config) (order : List Ptr) :
    NMIP4Config :=
  order.foldl (fun composite config => merge_one_ip4_config composite (heap config)) dst

/-- The invariant of the registry: no record twice in `configs`, no null pointer in
`configs`, and each role slot either null or a member of `configs`. -/
def RegistryInv (priv : NMNamedManagerPrivate) : Prop :=
  priv.configs.Nodup ∧ NULL ∉ priv.configs
    ∧ (priv.vpn_config = NULL ∨ priv.vpn_config ∈ priv.configs)
    ∧ (priv.device_config = NULL ∨ priv.device_config ∈ priv.configs)

/-- The calls of the example in which one record takes both roles. -/
def same_record_twice : List (Call × Env) :=
  [(Call.add_ip4_config 1 NM_NAMED_IP_CONFIG_TYPE_VPN, env_ok),
   (Call.add_ip4_config 1 NM_NAMED_IP_CONFIG_TYPE_BEST_DEVICE, env_ok)]

/-- An example world in which the write of the body fails. -/
def env_body_fails : Env :=
  { env_ok with fprintf_body := some "No space left on device", torn := "domain d" }

/-- An example world in which the policy forbids touching the file. -/
def env_policy_off : Env :=
  { env_ok with should_modify_resolv_conf := false }

/-- An example of files: `/etc/resolv.conf` holds an older text. -/
def fs_old : FileSystem :=
  { resolv_conf := some "nameserver 192.0.2.1\n", resolv_conf_tmp := none }

/-! ## The rendered text, line by line -/

/-- A text without line break. -/
def no_newline (s : String) : Prop := '\n' ∉ s.data

instance (s : String) : Decidable (no_newline s) :=
  inferInstanceAs (Decidable ('\n' ∉ s.data))

/-- The text made of the given lines, each one ended by a newline. -/
def unlines : List String → String
  | [] => ""
  | l :: ls => l ++ "\n" ++ unlines ls

/-- The line of the resolver file for one nameserver. -/
def nameserver_line (nameserver : Nat) : String := "nameserver " ++ inet_ntop nameserver

/-- First line of the warning on the limit of three nameservers. -/
def warning_note : String :=
  "# NOTE: the glibc resolver does not support more than 3 nameservers."

/-- Second line of the warning on the limit of three nameservers. -/
def warning_below : String :=
  "# The nameservers listed below may not be recognized."

/-- The lines of the nameserver block: the lines of the first three entries, and, when
there is a fourth entry, a blank line, the two warning lines and the lines of the
entries from the fourth on. -/
def nameserver_lines (nameservers : List Nat) : List String :=
  (nameservers.take 3).map nameserver_line
    ++ (if 3 < nameservers.length then
          ["", warning_note, warning_below] ++ (nameservers.drop 3).map nameserver_line
        else [])

/-- The entries of a list, each preceded by one space. -/
def spaced : List String → String
  | [] => ""
  | e :: es => " " ++ e ++ spaced es

/-- The search directive for a list of entries. -/
def search_line (entries : List String) : String := "search" ++ spaced entries

/-- The lines of the domain block: the directive for the first domain and a blank line,
or nothing when there is no domain. -/
def domain_lines (composite : NMIP4Config) : List String :=
  match composite.domains with
  | [] => []
  | d :: _ => ["domain " ++ d, ""]

/-- The lines of the search block: the directive for the searches (for the domains when
there is no search) and a blank line, or nothing when there is neither. -/
def search_lines (composite : NMIP4Config) : List String :=
  if composite.searches = [] then
    (if composite.domains = [] then [] else [search_line composite.domains, ""])
  else [search_line composite.searches, ""]

/-- The lines of the whole text: header, blank line, domain block, search block,
nameserver block, blank line. -/
def text_lines (composite : NMIP4Config) : List String :=
  ["# generated by NetworkManager, do not edit!", ""] ++ domain_lines composite
    ++ search_lines composite ++ nameserver_lines composite.nameservers ++ [""]

/-- An example of a composite, as in the spec: two domains, no search, five nameservers. -/
def composite_xy : NMIP4Config :=
  { nameservers := [16777226, 33554442, 50331658, 67108874, 83886090],
    domains := ["x.com", "y.com"], searches := [] }

/-- An example of a composite without domain whose only search entry holds a line break. -/
def composite_newline : NMIP4Config :=
  { nameservers := [], domains := [], searches := ["a.com\ndomain b.com"] }

/-- The message of the error raised by the first step of `rewrite_resolv_conf` that
fails, the steps being taken in the order open, header write, body write, close,
rename; `none` when every step succeeds. -/
def first_failure (env : Env) : Option String :=
  match env.fopen with
  | some errno => some ("Could not open " ++ RESOLV_CONF ++ ": " ++ errno ++ "\n")
  | none =>
    match env.fprintf_header with
    | some errno => some ("Could not write " ++ RESOLV_CONF ++ ": " ++ errno ++ "\n")
    | none =>
      match env.fprintf_body with
      | some errno => some ("Could not write to " ++ RESOLV_CONF ++ ": " ++ errno ++ "\n")
      | none =>
        match env.fclose with
        | some errno => some ("Could not close " ++ RESOLV_CONF ++ ": " ++ errno ++ "\n")
        | none =>
          match env.rename with
          | some errno => some ("Could not replace " ++ RESOLV_CONF ++ ": " ++ errno ++ "\n")
          | none => none

/-- An example world in which the write of the body and then the close both fail. -/
def env_body_and_close_fail : Env :=
  { env_ok with fprintf_body := some "No space left on device",
                fclose := some "Input/output error", torn := "domain d" }

/-- An example of a composite without nameserver whose only search entry holds a line
break followed by the text of a nameserver directive. -/
def composite_newline_nameserver : NMIP4Config :=
  { nameservers := [], domains := [], searches := ["a.com\nnameserver 192.0.2.6"] }

/-- An example heap in which every record has one search entry, which holds a line
break. -/
def heap_newline (_p : Ptr) : NMIP4Config :=
  { nameservers := [], domains := [], searches := ["a.com\nsearch b.com"] }

/-- An example registry: record `5` is the only record, registered as a plain record. -/
def priv_one_plain : NMNamedManagerPrivate :=
  { vpn_config := NULL, device_config := NULL, configs := [5], disposed := false }

/-- An example registry: record `1` is the VPN record, record `2` a plain record. -/
def priv_vpn_and_plain : NMNamedManagerPrivate :=
  { vpn_config := 1, device_config := NULL, configs := [1, 2], disposed := false }

/-- An example heap in which every record has one domain, which holds a line break
followed by the text of a nameserver directive, and nothing else. -/
def heap_newline_domain (_p : Ptr) : NMIP4Config :=
  { nameservers := [], domains := ["x.com\nnameserver 6.6.6.6"], searches := [] }

/-! # Theorems -/

/-! ## Lemmas on the merge engine -/

theorem for_loop_succ {σ : Type} (n : Nat) (body : Nat → σ → σ) (init : σ) :
    for_loop (n + 1) body init = body n (for_loop n body init) := by
  simp [for_loop, List.range_succ]

theorem take_succ_getD {α : Type} (l : List α) (n : Nat) (d : α) (h : n < l.length) :
    l.take (n + 1) = l.take n ++ [l.getD n d] := by
  rw [List.take_succ, List.getD_eq_getElem l d h, List.getElem?_eq_getElem h]
  rfl

theorem for_loop_add_nameserver (src dst : NMIP4Config) (n : Nat)
    (hn : n ≤ src.nameservers.length) :
    for_loop n
      (fun i dst => nm_ip4_config_add_nameserver dst (nm_ip4_config_get_nameserver src i)) dst
      = { dst with nameservers := dst.nameservers ++ src.nameservers.take n } := by
  induction n with
  | zero => simp [for_loop]
  | succ n ih =>
    rw [for_loop_succ, ih (Nat.le_of_succ_le hn)]
    simp [nm_ip4_config_add_nameserver, nm_ip4_config_get_nameserver,
      take_succ_getD src.nameservers n 0 hn]

theorem for_loop_add_domain (src dst : NMIP4Config) (n : Nat)
    (hn : n ≤ src.domains.length) :
    for_loop n
      (fun i dst => nm_ip4_config_add_domain dst (nm_ip4_config_get_domain src i)) dst
      = { dst with domains := dst.domains ++ src.domains.take n } := by
  induction n with
  | zero => simp [for_loop]
  | succ n ih =>
    rw [for_loop_succ, ih (Nat.le_of_succ_le hn)]
    simp [nm_ip4_config_add_domain, nm_ip4_config_get_domain,
      take_succ_getD src.domains n "" hn]

theorem for_loop_add_search (src dst : NMIP4Config) (n : Nat)
    (hn : n ≤ src.searches.length) :
    for_loop n
      (fun i dst => nm_ip4_config_add_search dst (nm_ip4_config_get_search src i)) dst
      = { dst with searches := dst.searches ++ src.searches.take n } := by
  induction n with
  | zero => simp [for_loop]
  | succ n ih =>
    rw [for_loop_succ, ih (Nat.le_of_succ_le hn)]
    simp [nm_ip4_config_add_search, nm_ip4_config_get_search,
      take_succ_getD src.searches n "" hn]

theorem for_loop_add_search_domain (src dst : NMIP4Config) (n : Nat)
    (hn : n ≤ src.domains.length) :
    for_loop n
      (fun i dst => nm_ip4_config_add_search dst (nm_ip4_config_get_domain src i)) dst
      = { dst with searches := dst.searches ++ src.domains.take n } := by
  induction n with
  | zero => simp [for_loop]
  | succ n ih =>
    rw [for_loop_succ, ih (Nat.le_of_succ_le hn)]
    simp [nm_ip4_config_add_search, nm_ip4_config_get_domain,
      take_succ_getD src.domains n "" hn]

/-- Closed form of `merge_one_ip4_config`. -/
theorem merge_one_ip4_config_eq (dst src : NMIP4Config) :
    merge_one_ip4_config dst src =
      { nameservers := dst.nameservers ++ src.nameservers,
        domains := dst.domains ++ src.domains,
        searches := dst.searches ++ search_contribution src } := by
  unfold merge_one_ip4_config
  simp only [nm_ip4_config_get_num_nameservers, nm_ip4_config_get_num_domains,
    nm_ip4_config_get_num_searches]
  rw [for_loop_add_nameserver src dst _ (Nat.le_refl _),
    for_loop_add_domain src _ _ (Nat.le_refl _)]
  by_cases h : src.searches = []
  · have h0 : ¬ (src.searches.length > 0) := by simp [h]
    rw [if_neg h0, for_loop_add_search_domain src _ _ (Nat.le_refl _)]
    simp [search_contribution, h]
  · have h0 : src.searches.length > 0 := List.length_pos.mpr h
    rw [if_pos h0, for_loop_add_search src _ _ (Nat.le_refl _)]
    simp [search_contribution, h]

theorem merge_all_append (heap : Ptr → NMIP4Config) (dst : NMIP4Config) (l₁ l₂ : List Ptr) :
    merge_all heap dst (l₁ ++ l₂) = merge_all heap (merge_all heap dst l₁) l₂ := by
  simp [merge_all, List.foldl_append]

theorem foldl_skip_eq_merge_all (heap : Ptr → NMIP4Config) (skip : Ptr → Prop)
    [DecidablePred skip] (l : List Ptr) (dst : NMIP4Config) :
    l.foldl (fun composite config =>
        if skip config then composite else merge_one_ip4_config composite (heap config)) dst
      = merge_all heap dst (l.filter (fun config => !decide (skip config))) := by
  induction l generalizing dst with
  | nil => rfl
  | cons a l ih =>
    by_cases h : skip a
    · simp [List.foldl_cons, List.filter_cons, h, ih]
    · simp [List.foldl_cons, List.filter_cons, h, ih, merge_all]

theorem build_composite_eq_merge_all (heap : Ptr → NMIP4Config)
    (priv : NMNamedManagerPrivate) :
    build_composite heap priv = merge_all heap nm_ip4_config_new (merge_order priv) := by
  unfold build_composite merge_order
  simp only []
  rw [foldl_skip_eq_merge_all heap
    (fun config => config = priv.vpn_config ∨ config = priv.device_config)]
  rw [merge_all_append, merge_all_append]
  by_cases hv : priv.vpn_config = NULL <;> by_cases hd : priv.device_config = NULL <;>
    simp [hv, hd, merge_all]

theorem merge_all_nameservers (heap : Ptr → NMIP4Config) (order : List Ptr)
    (dst : NMIP4Config) :
    (merge_all heap dst order).nameservers
      = dst.nameservers ++ (order.map (fun p => (heap p).nameservers)).flatten := by
  induction order generalizing dst with
  | nil => simp [merge_all]
  | cons a l ih =>
    have h : merge_all heap dst (a :: l)
        = merge_all heap (merge_one_ip4_config dst (heap a)) l := rfl
    rw [h, ih, merge_one_ip4_config_eq]
    simp

/-- The nameserver list of the composite: the nameserver lists of the records of
`merge_order`, one after the other. -/
theorem build_composite_nameservers (heap : Ptr → NMIP4Config)
    (priv : NMNamedManagerPrivate) :
    (build_composite heap priv).nameservers
      = ((merge_order priv).map (fun p => (heap p).nameservers)).flatten := by
  rw [build_composite_eq_merge_all, merge_all_nameservers]
  simp [nm_ip4_config_new]

/-! ## Lemmas on the registry -/

theorem add_ip4_config_priv (env : Env) (heap : Ptr → NMIP4Config) (fs : FileSystem)
    (priv : NMNamedManagerPrivate) (config : Ptr) (cfg_type : NMNamedIPConfigType)
    (h : config ≠ NULL) :
    (nm_named_manager_add_ip4_config env heap fs priv config cfg_type).priv =
      { vpn_config :=
          if cfg_type = NM_NAMED_IP_CONFIG_TYPE_VPN then config else priv.vpn_config,
        device_config :=
          if cfg_type = NM_NAMED_IP_CONFIG_TYPE_BEST_DEVICE then config
          else priv.device_config,
        configs := if config ∈ priv.configs then priv.configs else priv.configs ++ [config],
        disposed := priv.disposed } := by
  unfold nm_named_manager_add_ip4_config
  rw [if_neg h]
  by_cases hm : config ∈ priv.configs <;> cases cfg_type <;>
    simp [g_slist_find, g_slist_append, hm]

theorem add_ip4_config_null (env : Env) (heap : Ptr → NMIP4Config) (fs : FileSystem)
    (priv : NMNamedManagerPrivate) (cfg_type : NMNamedIPConfigType) :
    nm_named_manager_add_ip4_config env heap fs priv NULL cfg_type
      = { ret := false, priv := priv, fs := fs, trace := [] } := by
  simp [nm_named_manager_add_ip4_config]

theorem remove_ip4_config_absent (env : Env) (heap : Ptr → NMIP4Config) (fs : FileSystem)
    (priv : NMNamedManagerPrivate) (config : Ptr) (h : config ∉ priv.configs) :
    nm_named_manager_remove_ip4_config env heap fs priv config
      = { ret := false, priv := priv, fs := fs, trace := [] } := by
  unfold nm_named_manager_remove_ip4_config
  by_cases h0 : config = NULL
  · rw [if_pos h0]
  · rw [if_neg h0]
    simp [g_slist_find, h]

theorem remove_ip4_config_priv (env : Env) (heap : Ptr → NMIP4Config) (fs : FileSystem)
    (priv : NMNamedManagerPrivate) (config : Ptr) (h0 : config ≠ NULL)
    (h : config ∈ priv.configs) :
    (nm_named_manager_remove_ip4_config env heap fs priv config).priv =
      { vpn_config := if config = priv.vpn_config then NULL else priv.vpn_config,
        device_config := if config = priv.device_config then NULL else priv.device_config,
        configs := priv.configs.erase config,
        disposed := priv.disposed } := by
  have hf : (!g_slist_find priv.configs config) = false := by simp [g_slist_find, h]
  unfold nm_named_manager_remove_ip4_config
  rw [if_neg h0]
  simp only [hf, Bool.false_eq_true, if_false, g_slist_remove]
  by_cases hv : config = priv.vpn_config
  · by_cases hd : config = priv.device_config
    · simp only [if_pos hv, if_pos hd]
    · simp only [if_pos hv, if_neg hd]
  · by_cases hd : config = priv.device_config
    · simp only [if_neg hv, if_pos hd]
    · simp only [if_neg hv, if_neg hd]

theorem registryInv_init : RegistryInv nm_named_manager_init := by
  simp [RegistryInv, nm_named_manager_init]

theorem registryInv_add (env : Env) (heap : Ptr → NMIP4Config) (fs : FileSystem)
    (priv : NMNamedManagerPrivate) (config : Ptr) (cfg_type : NMNamedIPConfigType)
    (hinv : RegistryInv priv) :
    RegistryInv (nm_named_manager_add_ip4_config env heap fs priv config cfg_type).priv := by
  by_cases h0 : config = NULL
  · subst h0
    rw [add_ip4_config_null]
    exact hinv
  · rw [add_ip4_config_priv env heap fs priv config cfg_type h0]
    obtain ⟨hnd, hnull, hv, hd⟩ := hinv
    have hne : NULL ≠ config := fun h => h0 h.symm
    by_cases hm : config ∈ priv.configs
    · refine ⟨by simpa [hm] using hnd, by simpa [hm] using hnull, ?_, ?_⟩
      · by_cases ht : cfg_type = NM_NAMED_IP_CONFIG_TYPE_VPN
        · right; simp [ht, hm]
        · simpa [ht, hm] using hv
      · by_cases ht : cfg_type = NM_NAMED_IP_CONFIG_TYPE_BEST_DEVICE
        · right; simp [ht, hm]
        · simpa [ht, hm] using hd
    · refine ⟨?_, ?_, ?_, ?_⟩
      · simp only [hm, if_false]
        exact List.Nodup.append hnd (List.nodup_singleton _) (by simpa using hm)
      · simp [hm, hnull, hne]
      · by_cases ht : cfg_type = NM_NAMED_IP_CONFIG_TYPE_VPN
        · right; simp [ht, hm]
        · rcases hv with hv | hv
          · left; simp [ht, hv]
          · right; simp [ht, hm, hv]
      · by_cases ht : cfg_type = NM_NAMED_IP_CONFIG_TYPE_BEST_DEVICE
        · right; simp [ht, hm]
        · rcases hd with hd | hd
          · left; simp [ht, hd]
          · right; simp [ht, hm, hd]

theorem registryInv_remove (env : Env) (heap : Ptr → NMIP4Config) (fs : FileSystem)
    (priv : NMNamedManagerPrivate) (config : Ptr) (hinv : RegistryInv priv) :
    RegistryInv (nm_named_manager_remove_ip4_config env heap fs priv config).priv := by
  by_cases hm : config ∈ priv.configs
  · obtain ⟨hnd, hnull, hv, hd⟩ := hinv
    have h0 : config ≠ NULL := fun h => hnull (h ▸ hm)
    rw [remove_ip4_config_priv env heap fs priv config h0 hm]
    refine ⟨hnd.erase _, fun h => hnull (List.mem_of_mem_erase h), ?_, ?_⟩
    · by_cases hc : config = priv.vpn_config
      · left; simp [hc]
      · rcases hv with hv | hv
        · left; simp [hc, hv]
        · right
          simp only [hc, if_false]
          exact (List.mem_erase_of_ne (fun h => hc h.symm)).mpr hv
    · by_cases hc : config = priv.device_config
      · left; simp [hc]
      · rcases hd with hd | hd
        · left; simp [hc, hd]
        · right
          simp only [hc, if_false]
          exact (List.mem_erase_of_ne (fun h => hc h.symm)).mpr hd
  · rw [remove_ip4_config_absent env heap fs priv config hm]
    exact hinv

theorem registryInv_do_call (heap : Ptr → NMIP4Config)
    (s : NMNamedManagerPrivate × FileSystem) (c : Call × Env) (hinv : RegistryInv s.1) :
    RegistryInv (do_call heap s c).1 := by
  obtain ⟨call, env⟩ := c
  cases call with
  | add_ip4_config config cfg_type => exact registryInv_add env heap s.2 s.1 config cfg_type hinv
  | remove_ip4_config config => exact registryInv_remove env heap s.2 s.1 config hinv

theorem registryInv_run (heap : Ptr → NMIP4Config) (calls : List (Call × Env))
    (s : NMNamedManagerPrivate × FileSystem) (hinv : RegistryInv s.1) :
    RegistryInv (run heap s calls).1 := by
  induction calls generalizing s with
  | nil => exact hinv
  | cons c calls ih => exact ih (do_call heap s c) (registryInv_do_call heap s c hinv)

theorem registryInv_of_reachable (heap : Ptr → NMIP4Config) (priv : NMNamedManagerPrivate)
    (h : Reachable heap priv) : RegistryInv priv := by
  obtain ⟨fs, calls, rfl⟩ := h
  exact registryInv_run heap calls (nm_named_manager_init, fs) registryInv_init

theorem run_cons (heap : Ptr → NMIP4Config) (s : NMNamedManagerPrivate × FileSystem)
    (c : Call × Env) (calls : List (Call × Env)) :
    run heap s (c :: calls) = run heap (do_call heap s c) calls := rfl

theorem run_nil (heap : Ptr → NMIP4Config) (s : NMNamedManagerPrivate × FileSystem) :
    run heap s [] = s := rfl

theorem do_call_add_priv (heap : Ptr → NMIP4Config) (s : NMNamedManagerPrivate × FileSystem)
    (config : Ptr) (cfg_type : NMNamedIPConfigType) (env : Env) (h : config ≠ NULL) :
    (do_call heap s (Call.add_ip4_config config cfg_type, env)).1 =
      { vpn_config :=
          if cfg_type = NM_NAMED_IP_CONFIG_TYPE_VPN then config else s.1.vpn_config,
        device_config :=
          if cfg_type = NM_NAMED_IP_CONFIG_TYPE_BEST_DEVICE then config
          else s.1.device_config,
        configs := if config ∈ s.1.configs then s.1.configs else s.1.configs ++ [config],
        disposed := s.1.disposed } := by
  simp only [do_call]
  exact add_ip4_config_priv env heap s.2 s.1 config cfg_type h

/-! ## The claims -/

/-- C3: after every sequence of Register and Unregister calls on a fresh manager,
`configs` holds no record twice, and each of `vpn_config` and `device_config` is
either unset (null) or a member of `configs`. -/
theorem C3_registry_invariant (heap : Ptr → NMIP4Config) (fs : FileSystem)
    (calls : List (Call × Env)) :
    (run heap (nm_named_manager_init, fs) calls).1.configs.Nodup
      ∧ ((run heap (nm_named_manager_init, fs) calls).1.vpn_config = NULL
          ∨ (run heap (nm_named_manager_init, fs) calls).1.vpn_config
              ∈ (run heap (nm_named_manager_init, fs) calls).1.configs)
      ∧ ((run heap (nm_named_manager_init, fs) calls).1.device_config = NULL
          ∨ (run heap (nm_named_manager_init, fs) calls).1.device_config
              ∈ (run heap (nm_named_manager_init, fs) calls).1.configs) := by
  have h := registryInv_run heap calls (nm_named_manager_init, fs) registryInv_init
  exact ⟨h.1, h.2.2.1, h.2.2.2⟩

/-- C4: `merge_one_ip4_config` appends to the search list of the destination exactly
the `searches` of the source record when that list is not empty, and exactly its
`domains` when it is empty; the appended entries depend on the source record alone. -/
theorem C4_search_derivation (dst src : NMIP4Config) :
    (merge_one_ip4_config dst src).searches
      = dst.searches ++ (if src.searches = [] then src.domains else src.searches) := by
  rw [merge_one_ip4_config_eq]
  rfl

/-- C1: from a fresh manager, registering three pairwise distinct records `R1` as VPN,
`R2` as best device and `R3` as a plain record, in any of the six orders, leaves a
state whose composite nameserver list is the nameservers of `R1`, then those of `R2`,
then those of `R3`. -/
theorem C1_merge_order_fixed (heap : Ptr → NMIP4Config) (fs : FileSystem) (R1 R2 R3 : Ptr)
    (h1 : R1 ≠ NULL) (h2 : R2 ≠ NULL) (h3 : R3 ≠ NULL)
    (h12 : R1 ≠ R2) (h13 : R1 ≠ R3) (h23 : R2 ≠ R3)
    (calls : List (Call × Env))
    (hcalls : (calls.map Prod.fst).Perm
      [Call.add_ip4_config R1 NM_NAMED_IP_CONFIG_TYPE_VPN,
       Call.add_ip4_config R2 NM_NAMED_IP_CONFIG_TYPE_BEST_DEVICE,
       Call.add_ip4_config R3 NM_NAMED_IP_CONFIG_TYPE_DEFAULT]) :
    (build_composite heap (run heap (nm_named_manager_init, fs) calls).1).nameservers
      = (heap R1).nameservers ++ (heap R2).nameservers ++ (heap R3).nameservers := by
  have hlen : calls.length = 3 := by simpa using hcalls.length_eq
  obtain ⟨a, b, c, rfl⟩ := List.length_eq_three.mp hlen
  obtain ⟨ca, ea⟩ := a
  obtain ⟨cb, eb⟩ := b
  obtain ⟨cc, ec⟩ := c
  simp only [List.map_cons, List.map_nil] at hcalls
  have ha : ca ∈ [ca, cb, cc] := by simp
  have hb : cb ∈ [ca, cb, cc] := by simp
  have hc : cc ∈ [ca, cb, cc] := by simp
  have hnd : [ca, cb, cc].Nodup := hcalls.nodup_iff.mpr (by simp [h12, h13, h23])
  rw [hcalls.mem_iff] at ha hb hc
  have h21 : R2 ≠ R1 := fun h => h12 h.symm
  have h31 : R3 ≠ R1 := fun h => h13 h.symm
  have h32 : R3 ≠ R2 := fun h => h23 h.symm
  simp only [List.mem_cons, List.mem_singleton, List.not_mem_nil, or_false] at ha hb hc
  rw [build_composite_nameservers]
  rcases ha with rfl | rfl | rfl <;> rcases hb with rfl | rfl | rfl <;>
    rcases hc with rfl | rfl | rfl <;>
    first
    | (exfalso; simp at hnd; done)
    | simp [run_cons, run_nil, do_call_add_priv, nm_named_manager_init, merge_order,
        List.filter_cons, h1, h2, h3, h12, h13, h23, h21, h31, h32]

/-- C2, at the failing input: registering the record `1` first as VPN and then as best
device leaves it once in `configs` and in both role slots; the composite then holds
its nameservers twice, which is not a permutation of the nameservers of the records
of `configs`, each taken once. -/
theorem C2_same_record_in_both_slots :
    (run example_heap (nm_named_manager_init, fs_empty) same_record_twice).1
      = { vpn_config := 1, device_config := 1, configs := [1], disposed := false }
    ∧ (build_composite example_heap
        (run example_heap (nm_named_manager_init, fs_empty) same_record_twice).1).nameservers
      = [1, 1]
    ∧ (((run example_heap (nm_named_manager_init, fs_empty) same_record_twice).1.configs.map
        (fun p => (example_heap p).nameservers)).flatten) = [1]
    ∧ ¬ (build_composite example_heap
        (run example_heap (nm_named_manager_init, fs_empty) same_record_twice).1).nameservers.Perm
        (((run example_heap (nm_named_manager_init, fs_empty) same_record_twice).1.configs.map
          (fun p => (example_heap p).nameservers)).flatten) := by
  refine ⟨by decide, by decide, by decide, by decide⟩

/-- Witness of C1: the order plain record, VPN, best device. -/
theorem C1_merge_order_fixed_witness :
    (build_composite example_heap
      (run example_heap (nm_named_manager_init, fs_empty)
        [(Call.add_ip4_config 3 NM_NAMED_IP_CONFIG_TYPE_DEFAULT, env_ok),
         (Call.add_ip4_config 1 NM_NAMED_IP_CONFIG_TYPE_VPN, env_ok),
         (Call.add_ip4_config 2 NM_NAMED_IP_CONFIG_TYPE_BEST_DEVICE, env_ok)]).1).nameservers
      = (example_heap 1).nameservers ++ (example_heap 2).nameservers
          ++ (example_heap 3).nameservers :=
  C1_merge_order_fixed example_heap fs_empty 1 2 3 (by decide) (by decide) (by decide)
    (by decide) (by decide) (by decide) _ (by decide)

/-! ## Lemmas on the publisher -/

theorem rewrite_resolv_conf_policy_count (env : Env) (heap : Ptr → NMIP4Config)
    (fs : FileSystem) (priv : NMNamedManagerPrivate) :
    (rewrite_resolv_conf env heap fs priv).trace.count
      Event.nm_system_should_modify_resolv_conf = 1 := by
  obtain ⟨sm, fo, fh, fb, fc, rn, torn⟩ := env
  cases sm <;> cases fo <;> cases fh <;> cases fb <;> cases fc <;> cases rn <;>
    simp [rewrite_resolv_conf, g_set_error]

/-- C5: when publishing is permitted and one of open, header write, body write, close
or rename fails, `rewrite_resolv_conf` returns failure and the canonical file holds
what it held before; when one of the first four fails, the rename is not attempted. -/
theorem C5_publish_atomicity (env : Env) (heap : Ptr → NMIP4Config) (fs : FileSystem)
    (priv : NMNamedManagerPrivate) (hpol : env.should_modify_resolv_conf = true)
    (hfail : env.fopen ≠ none ∨ env.fprintf_header ≠ none ∨ env.fprintf_body ≠ none
      ∨ env.fclose ≠ none ∨ env.rename ≠ none) :
    (rewrite_resolv_conf env heap fs priv).ret = false
      ∧ (rewrite_resolv_conf env heap fs priv).fs.resolv_conf = fs.resolv_conf
      ∧ ((env.fopen ≠ none ∨ env.fprintf_header ≠ none ∨ env.fprintf_body ≠ none
            ∨ env.fclose ≠ none)
          → Event.rename ∉ (rewrite_resolv_conf env heap fs priv).trace) := by
  obtain ⟨sm, fo, fh, fb, fc, rn, torn⟩ := env
  simp only at hpol
  subst hpol
  cases fo <;> cases fh <;> cases fb <;> cases fc <;> cases rn <;>
    simp [rewrite_resolv_conf, g_set_error, fs_write] at hfail ⊢

/-- Witness of C5: the body write fails for lack of space while `/etc/resolv.conf`
holds an older text. -/
theorem C5_publish_atomicity_witness :
    (rewrite_resolv_conf env_body_fails example_heap fs_old
        { vpn_config := 1, device_config := 0, configs := [1], disposed := false }).ret = false
      ∧ (rewrite_resolv_conf env_body_fails example_heap fs_old
        { vpn_config := 1, device_config := 0, configs := [1], disposed := false }).fs.resolv_conf
          = fs_old.resolv_conf
      ∧ ((env_body_fails.fopen ≠ none ∨ env_body_fails.fprintf_header ≠ none
            ∨ env_body_fails.fprintf_body ≠ none ∨ env_body_fails.fclose ≠ none)
          → Event.rename ∉ (rewrite_resolv_conf env_body_fails example_heap fs_old
              { vpn_config := 1, device_config := 0, configs := [1],
                disposed := false }).trace) :=
  C5_publish_atomicity env_body_fails example_heap fs_old
    { vpn_config := 1, device_config := 0, configs := [1], disposed := false }
    rfl (Or.inr (Or.inr (Or.inl (by decide))))

/-- C6: when `nm_system_should_modify_resolv_conf ()` is false, `rewrite_resolv_conf`
returns success, leaves the canonical and the temporary file as they were and does
not call `nm_system_update_dns`; Register and Unregister made under that policy
return what they return, and leave the registry they leave, under any other answers
of the outside, and leave both files as they were. -/
theorem C6_policy_gate (env : Env) (heap : Ptr → NMIP4Config) (fs : FileSystem)
    (priv : NMNamedManagerPrivate) (hpol : env.should_modify_resolv_conf = false) :
    (rewrite_resolv_conf env heap fs priv).ret = true
      ∧ (rewrite_resolv_conf env heap fs priv).fs = fs
      ∧ Event.nm_system_update_dns ∉ (rewrite_resolv_conf env heap fs priv).trace
      ∧ (∀ (env' : Env) (fs' : FileSystem) (config : Ptr) (cfg_type : NMNamedIPConfigType),
          (nm_named_manager_add_ip4_config env heap fs priv config cfg_type).priv
              = (nm_named_manager_add_ip4_config env' heap fs' priv config cfg_type).priv
            ∧ (nm_named_manager_add_ip4_config env heap fs priv config cfg_type).ret
              = (nm_named_manager_add_ip4_config env' heap fs' priv config cfg_type).ret
            ∧ (nm_named_manager_add_ip4_config env heap fs priv config cfg_type).fs = fs)
      ∧ (∀ (env' : Env) (fs' : FileSystem) (config : Ptr),
          (nm_named_manager_remove_ip4_config env heap fs priv config).priv
              = (nm_named_manager_remove_ip4_config env' heap fs' priv config).priv
            ∧ (nm_named_manager_remove_ip4_config env heap fs priv config).ret
              = (nm_named_manager_remove_ip4_config env' heap fs' priv config).ret
            ∧ (nm_named_manager_remove_ip4_config env heap fs priv config).fs = fs) := by
  have hgate : ∀ p : NMNamedManagerPrivate, (rewrite_resolv_conf env heap fs p).fs = fs := by
    intro p
    simp [rewrite_resolv_conf, hpol]
  refine ⟨by simp [rewrite_resolv_conf, hpol], hgate priv,
    by simp [rewrite_resolv_conf, hpol], ?_, ?_⟩
  · intro env' fs' config cfg_type
    by_cases h0 : config = NULL
    · subst h0
      simp [add_ip4_config_null]
    · refine ⟨?_, ?_, ?_⟩
      · rw [add_ip4_config_priv env heap fs priv config cfg_type h0,
          add_ip4_config_priv env' heap fs' priv config cfg_type h0]
      · simp [nm_named_manager_add_ip4_config, h0]
      · simp only [nm_named_manager_add_ip4_config, if_neg h0]
        exact hgate _
  · intro env' fs' config
    by_cases hm : config ∈ priv.configs
    · by_cases h0 : config = NULL
      · simp [nm_named_manager_remove_ip4_config, h0]
      · have hf : (!g_slist_find priv.configs config) = false := by simp [g_slist_find, hm]
        refine ⟨?_, ?_, ?_⟩
        · rw [remove_ip4_config_priv env heap fs priv config h0 hm,
            remove_ip4_config_priv env' heap fs' priv config h0 hm]
        · simp [nm_named_manager_remove_ip4_config, h0, hf]
        · simp only [nm_named_manager_remove_ip4_config, if_neg h0, hf, Bool.false_eq_true,
            if_false]
          exact hgate _
    · simp [remove_ip4_config_absent _ heap _ priv config hm]

/-- Witness of C6: the policy forbids the modification while `/etc/resolv.conf` holds
an older text. -/
theorem C6_policy_gate_witness :
    (rewrite_resolv_conf env_policy_off example_heap fs_old nm_named_manager_init).ret = true
      ∧ (rewrite_resolv_conf env_policy_off example_heap fs_old nm_named_manager_init).fs
          = fs_old :=
  ⟨(C6_policy_gate env_policy_off example_heap fs_old nm_named_manager_init rfl).1,
   (C6_policy_gate env_policy_off example_heap fs_old nm_named_manager_init rfl).2.1⟩

/-- C7: Unregister of a record that is not in `configs` returns FALSE, leaves
`configs`, `vpn_config` and `device_config` as they were, leaves the files as they
were and makes no call to the outside: no publish cycle is run. -/
theorem C7_remove_absent (env : Env) (heap : Ptr → NMIP4Config) (fs : FileSystem)
    (priv : NMNamedManagerPrivate) (config : Ptr) (h : config ∉ priv.configs) :
    (nm_named_manager_remove_ip4_config env heap fs priv config).ret = false
      ∧ (nm_named_manager_remove_ip4_config env heap fs priv config).priv = priv
      ∧ (nm_named_manager_remove_ip4_config env heap fs priv config).fs = fs
      ∧ (nm_named_manager_remove_ip4_config env heap fs priv config).trace = [] := by
  rw [remove_ip4_config_absent env heap fs priv config h]
  exact ⟨rfl, rfl, rfl, rfl⟩

/-- Witness of C7: record `7` was never registered. -/
theorem C7_remove_absent_witness :
    (nm_named_manager_remove_ip4_config env_ok example_heap fs_old
        { vpn_config := 1, device_config := 0, configs := [1], disposed := false } 7).ret = false
      ∧ (nm_named_manager_remove_ip4_config env_ok example_heap fs_old
        { vpn_config := 1, device_config := 0, configs := [1], disposed := false } 7).priv
          = { vpn_config := 1, device_config := 0, configs := [1], disposed := false }
      ∧ (nm_named_manager_remove_ip4_config env_ok example_heap fs_old
        { vpn_config := 1, device_config := 0, configs := [1], disposed := false } 7).fs = fs_old
      ∧ (nm_named_manager_remove_ip4_config env_ok example_heap fs_old
        { vpn_config := 1, device_config := 0, configs := [1], disposed := false } 7).trace = [] :=
  C7_remove_absent env_ok example_heap fs_old
    { vpn_config := 1, device_config := 0, configs := [1], disposed := false } 7 (by decide)

/-- C8: Register of a non-null record returns TRUE whatever the outcome of the
publish step, runs `rewrite_resolv_conf` exactly once (the policy is asked once, and
the files are those left by one run on the updated registry), and leaves the same
`vpn_config`, `device_config` and `configs` whether the publish step fails or not. -/
theorem C8_add_always_succeeds (env : Env) (heap : Ptr → NMIP4Config) (fs : FileSystem)
    (priv : NMNamedManagerPrivate) (config : Ptr) (cfg_type : NMNamedIPConfigType)
    (h : config ≠ NULL) :
    (nm_named_manager_add_ip4_config env heap fs priv config cfg_type).ret = true
      ∧ (nm_named_manager_add_ip4_config env heap fs priv config cfg_type).trace.count
          Event.nm_system_should_modify_resolv_conf = 1
      ∧ (nm_named_manager_add_ip4_config env heap fs priv config cfg_type).fs
          = (rewrite_resolv_conf env heap fs
              (nm_named_manager_add_ip4_config env heap fs priv config cfg_type).priv).fs
      ∧ (∀ (env' : Env) (fs' : FileSystem),
          (nm_named_manager_add_ip4_config env' heap fs' priv config cfg_type).priv
            = (nm_named_manager_add_ip4_config env heap fs priv config cfg_type).priv) := by
  refine ⟨by simp [nm_named_manager_add_ip4_config, h], ?_, ?_, ?_⟩
  · simp only [nm_named_manager_add_ip4_config, if_neg h]
    split_ifs <;> simp [List.count_append, rewrite_resolv_conf_policy_count]
  · simp only [nm_named_manager_add_ip4_config, if_neg h]
  · intro env' fs'
    rw [add_ip4_config_priv env heap fs priv config cfg_type h,
      add_ip4_config_priv env' heap fs' priv config cfg_type h]

/-- Witness of C8: record `2` is registered as best device while the body write fails. -/
theorem C8_add_always_succeeds_witness :
    (nm_named_manager_add_ip4_config env_body_fails example_heap fs_old
        nm_named_manager_init 2 NM_NAMED_IP_CONFIG_TYPE_BEST_DEVICE).ret = true :=
  (C8_add_always_succeeds env_body_fails example_heap fs_old nm_named_manager_init 2
    NM_NAMED_IP_CONFIG_TYPE_BEST_DEVICE (by decide)).1

/-! ## Lemmas on lines -/

theorem lines_of_chars_line (l rest : List Char) (h : '\n' ∉ l) :
    lines_of_chars (l ++ '\n' :: rest) = l :: lines_of_chars rest := by
  induction l with
  | nil => simp [lines_of_chars]
  | cons c l ih =>
    have hc : c ≠ '\n' := fun e => h (by simp [e])
    have hl : '\n' ∉ l := fun e => h (List.mem_cons_of_mem _ e)
    simp [lines_of_chars, hc, ih hl]

theorem unlines_append (a b : List String) : unlines (a ++ b) = unlines a ++ unlines b := by
  induction a with
  | nil => simp [unlines]
  | cons l ls ih => simp [unlines, ih, String.append_assoc]

theorem lines_unlines (ls : List String) (h : ∀ l ∈ ls, no_newline l) :
    lines (unlines ls) = ls := by
  induction ls with
  | nil => rfl
  | cons l ls ih =>
    have hl : '\n' ∉ l.data := h l (by simp)
    have hd : (unlines (l :: ls)).data = l.data ++ '\n' :: (unlines ls).data := by
      simp [unlines, String.data_append]
    have ih' := ih (fun x hx => h x (List.mem_cons_of_mem _ hx))
    unfold lines at ih' ⊢
    rw [hd, lines_of_chars_line _ _ hl, List.map_cons, ih']

theorem digitChar_ne_newline : ∀ d : Nat, d < 10 → Nat.digitChar d ≠ '\n' := by
  decide

theorem toDigitsCore_no_newline (fuel n : Nat) (ds : List Char) (h : '\n' ∉ ds) :
    '\n' ∉ Nat.toDigitsCore 10 fuel n ds := by
  induction fuel generalizing n ds with
  | zero => simpa [Nat.toDigitsCore] using h
  | succ fuel ih =>
    have hc : '\n' ∉ Nat.digitChar (n % 10) :: ds := by
      simp only [List.mem_cons, not_or]
      exact ⟨fun e => digitChar_ne_newline _ (Nat.mod_lt _ (by decide)) e.symm, h⟩
    unfold Nat.toDigitsCore
    simp only []
    split_ifs
    · exact hc
    · exact ih _ _ hc

theorem toString_nat_no_newline (n : Nat) : '\n' ∉ (toString n).data := by
  show '\n' ∉ (Nat.repr n).data
  unfold Nat.repr Nat.toDigits
  simp only [List.asString]
  exact toDigitsCore_no_newline _ _ _ (by simp)

theorem inet_ntop_no_newline (a : Nat) : no_newline (inet_ntop a) := by
  have h := toString_nat_no_newline
  simp only [no_newline, inet_ntop, String.data_append, List.mem_append, not_or]
  refine ⟨⟨⟨⟨⟨⟨h _, by decide⟩, h _⟩, by decide⟩, h _⟩, by decide⟩, h _⟩

theorem nameserver_line_no_newline (a : Nat) : no_newline (nameserver_line a) := by
  have h := inet_ntop_no_newline a
  simp only [no_newline, nameserver_line, String.data_append, List.mem_append, not_or] at h ⊢
  exact ⟨by decide, h⟩

theorem nameserver_lines_no_newline (l : List Nat) :
    ∀ x ∈ nameserver_lines l, no_newline x := by
  intro x hx
  unfold nameserver_lines at hx
  split_ifs at hx
  · simp only [List.mem_append, List.mem_map, List.mem_cons, List.not_mem_nil, or_false] at hx
    rcases hx with ⟨a, _, rfl⟩ | (rfl | rfl | rfl) | ⟨a, _, rfl⟩
    · exact nameserver_line_no_newline a
    · decide
    · decide
    · decide
    · exact nameserver_line_no_newline a
  · simp only [List.append_nil, List.mem_map] at hx
    obtain ⟨a, _, rfl⟩ := hx
    exact nameserver_line_no_newline a

theorem nameserver_lines_snoc (l : List Nat) (a : Nat) :
    nameserver_lines (l ++ [a])
      = nameserver_lines l
          ++ (if l.length = 3 then ["", warning_note, warning_below] else [])
          ++ [nameserver_line a] := by
  unfold nameserver_lines
  rcases Nat.lt_trichotomy l.length 3 with h | h | h
  · have h1 : ¬ (3 < l.length) := by omega
    have h2 : ¬ (3 < (l ++ [a]).length) := by simp; omega
    have h3 : l.length ≠ 3 := by omega
    rw [if_neg h1, if_neg h2, if_neg h3, List.take_of_length_le (by simp; omega),
      List.take_of_length_le (by omega)]
    simp
  · have h1 : ¬ (3 < l.length) := by omega
    have h2 : 3 < (l ++ [a]).length := by simp; omega
    rw [if_neg h1, if_pos h2, if_pos h, List.take_append_of_le_length (by omega),
      List.drop_append_of_le_length (by omega), List.drop_of_length_le (by omega)]
    simp
  · have h2 : 3 < (l ++ [a]).length := by simp; omega
    have h3 : l.length ≠ 3 := by omega
    rw [if_pos h, if_pos h2, if_neg h3, List.take_append_of_le_length (by omega),
      List.drop_append_of_le_length (by omega)]
    simp

theorem warning_text_eq (str : String) :
    ((((str ++ "\n# ")
      ++ gettext "NOTE: the glibc resolver does not support more than 3 nameservers.")
      ++ "\n# ")
      ++ gettext "The nameservers listed below may not be recognized.").push '\n'
      = str ++ unlines ["", warning_note, warning_below] := by
  have h : ((("\n# "
      ++ gettext "NOTE: the glibc resolver does not support more than 3 nameservers.")
      ++ "\n# ")
      ++ gettext "The nameservers listed below may not be recognized.").push '\n'
      = unlines ["", warning_note, warning_below] := by decide
  rw [← h]
  apply String.ext
  simp only [String.data_append, String.data_push, List.append_assoc]

theorem nameserver_text_eq (str buf : String) :
    ((str ++ "nameserver ") ++ buf).push '\n' = str ++ unlines ["nameserver " ++ buf] := by
  apply String.ext
  simp [String.data_append, String.data_push, unlines]

theorem compute_nameservers_loop (config : NMIP4Config) (n : Nat)
    (hn : n ≤ config.nameservers.length) :
    for_loop n
      (fun i str =>
        let buf := inet_ntop (nm_ip4_config_get_nameserver config i)
        let str :=
          if i = 3 then
            ((((str ++ "\n# ")
              ++ gettext "NOTE: the glibc resolver does not support more than 3 nameservers.")
              ++ "\n# ")
              ++ gettext "The nameservers listed below may not be recognized.").push '\n'
          else str
        ((str ++ "nameserver ") ++ buf).push '\n')
      ""
      = unlines (nameserver_lines (config.nameservers.take n)) := by
  induction n with
  | zero => simp [for_loop, nameserver_lines, unlines]
  | succ n ih =>
    have hlen : (config.nameservers.take n).length = n := by
      rw [List.length_take]; omega
    rw [for_loop_succ, ih (Nat.le_of_succ_le hn), take_succ_getD config.nameservers n 0 hn,
      nameserver_lines_snoc, unlines_append, unlines_append, hlen]
    simp only [nameserver_text_eq, warning_text_eq]
    by_cases h3 : n = 3
    · simp only [if_pos h3, nm_ip4_config_get_nameserver, nameserver_line]
    · simp only [if_neg h3, nm_ip4_config_get_nameserver, nameserver_line]
      simp [unlines]

/-- Closed form of `compute_nameservers`, with `NULL` read as the empty text, as the
`fprintf` of `rewrite_resolv_conf` reads it. -/
theorem compute_nameservers_eq (config : NMIP4Config) :
    (compute_nameservers config).getD "" = unlines (nameserver_lines config.nameservers) := by
  unfold compute_nameservers
  simp only [nm_ip4_config_get_num_nameservers]
  by_cases h : config.nameservers.length = 0
  · have h' : config.nameservers = [] := List.length_eq_zero.mp h
    rw [if_pos h]
    simp [h', nameserver_lines, unlines]
  · rw [if_neg h]
    have hloop := compute_nameservers_loop config config.nameservers.length (Nat.le_refl _)
    rw [List.take_length] at hloop
    exact hloop

theorem nameserver_line_ne_warning_note (a : Nat) : nameserver_line a ≠ warning_note := by
  intro h
  have hd := congrArg String.data h
  simp [nameserver_line, warning_note, String.data_append] at hd

theorem nameserver_line_ne_warning_below (a : Nat) : nameserver_line a ≠ warning_below := by
  intro h
  have hd := congrArg String.data h
  simp [nameserver_line, warning_below, String.data_append] at hd

theorem count_map_nameserver_line (w : String) (hw : ∀ a, nameserver_line a ≠ w)
    (l : List Nat) : (l.map nameserver_line).count w = 0 := by
  rw [List.count_eq_zero]
  intro hmem
  obtain ⟨a, _, ha⟩ := List.mem_map.mp hmem
  exact hw a ha

/-- C10: the text of `compute_nameservers` consists of the `nameserver` lines of the
first three entries, followed, exactly when there is a fourth entry, by a blank line,
the two warning lines and the `nameserver` lines of the entries from the fourth on;
each warning line occurs once when there are four entries or more, and not at all
otherwise. -/
theorem C10_nameserver_warning (config : NMIP4Config) :
    lines ((compute_nameservers config).getD "")
        = (config.nameservers.take 3).map nameserver_line
          ++ (if 3 < config.nameservers.length then
                ["", warning_note, warning_below]
                  ++ (config.nameservers.drop 3).map nameserver_line
              else [])
      ∧ (lines ((compute_nameservers config).getD "")).count warning_note
          = (if 3 < config.nameservers.length then 1 else 0)
      ∧ (lines ((compute_nameservers config).getD "")).count warning_below
          = (if 3 < config.nameservers.length then 1 else 0) := by
  have hlines : lines ((compute_nameservers config).getD "")
      = nameserver_lines config.nameservers := by
    rw [compute_nameservers_eq]
    exact lines_unlines _ (nameserver_lines_no_newline _)
  have hn := count_map_nameserver_line warning_note nameserver_line_ne_warning_note
  have hb := count_map_nameserver_line warning_below nameserver_line_ne_warning_below
  refine ⟨hlines, ?_, ?_⟩
  · rw [hlines]
    unfold nameserver_lines
    split_ifs
    · rw [List.count_append, List.count_append, hn, hn]
      decide
    · rw [List.append_nil, hn]
  · rw [hlines]
    unfold nameserver_lines
    split_ifs
    · rw [List.count_append, List.count_append, hb, hb]
      decide
    · rw [List.append_nil, hb]

/-! ## Closed form of the rendered text -/

theorem spaced_snoc (l : List String) (a : String) :
    spaced (l ++ [a]) = (spaced l ++ " ") ++ a := by
  induction l with
  | nil =>
    apply String.ext
    simp [spaced, String.data_append]
  | cons e es ih =>
    apply String.ext
    simp [spaced, ih, String.data_append]

theorem search_loop (l : List String) (n : Nat) (hn : n ≤ l.length) :
    for_loop n (fun i str => (str.push ' ') ++ l.getD i "") "search"
      = search_line (l.take n) := by
  induction n with
  | zero =>
    apply String.ext
    simp [for_loop, search_line, spaced, String.data_append]
  | succ n ih =>
    rw [for_loop_succ, ih (Nat.le_of_succ_le hn), take_succ_getD l n "" hn]
    unfold search_line
    rw [spaced_snoc]
    apply String.ext
    simp [String.data_append, String.data_push]

theorem two_newlines_eq (line : String) : line ++ "\n\n" = unlines [line, ""] := by
  apply String.ext
  simp [unlines, String.data_append]

theorem compute_searches_eq (composite : NMIP4Config) :
    (compute_searches composite).getD "" = unlines (search_lines composite) := by
  have hd := search_loop composite.domains composite.domains.length (Nat.le_refl _)
  have hs := search_loop composite.searches composite.searches.length (Nat.le_refl _)
  rw [List.take_length] at hd hs
  unfold compute_searches search_lines
  simp only [nm_ip4_config_get_num_domains, nm_ip4_config_get_num_searches,
    nm_ip4_config_get_domain, nm_ip4_config_get_search]
  by_cases h1 : composite.searches = []
  · by_cases h2 : composite.domains = []
    · simp [h1, h2, unlines]
    · have h3 : composite.domains.length > 0 := List.length_pos.mpr h2
      have h4 : composite.searches.length = 0 := by simp [h1]
      rw [if_pos ⟨h4, h3⟩, if_pos h1, if_neg h2, hd, Option.getD_some, two_newlines_eq]
  · have h3 : composite.searches.length > 0 := List.length_pos.mpr h1
    have h4 : ¬ (composite.searches.length = 0 ∧ composite.domains.length > 0) := by omega
    rw [if_neg h4, if_pos h3, if_neg h1, hs, Option.getD_some, two_newlines_eq]

theorem compute_domain_eq (composite : NMIP4Config) :
    (compute_domain composite).getD "" = unlines (domain_lines composite) := by
  unfold compute_domain domain_lines
  simp only [nm_ip4_config_get_num_domains, nm_ip4_config_get_domain]
  cases h : composite.domains with
  | nil => simp [unlines]
  | cons d ds =>
    have h3 : (d :: ds).length > 0 := by simp
    rw [if_pos h3, Option.getD_some, two_newlines_eq]
    simp

/-- Closed form of the text written by `rewrite_resolv_conf`: the lines of
`text_lines`, each ended by a newline. -/
theorem resolv_conf_text_eq (composite : NMIP4Config) :
    resolv_conf_text composite = unlines (text_lines composite) := by
  have hh : resolv_conf_header = unlines ["# generated by NetworkManager, do not edit!", ""] := by
    decide
  have hn : ("\n" : String) = unlines [""] := by decide
  unfold resolv_conf_text resolv_conf_body text_lines
  rw [compute_domain_eq, compute_searches_eq, compute_nameservers_eq, hh, hn,
    unlines_append, unlines_append, unlines_append, unlines_append]
  simp only [String.append_assoc]

theorem spaced_no_newline (l : List String) (h : ∀ e ∈ l, no_newline e) :
    no_newline (spaced l) := by
  induction l with
  | nil => decide
  | cons e es ih =>
    have he : '\n' ∉ e.data := h e (by simp)
    have hes : '\n' ∉ (spaced es).data := ih (fun x hx => h x (List.mem_cons_of_mem _ hx))
    simp only [no_newline, spaced, String.data_append, List.mem_append, not_or]
    exact ⟨⟨by decide, he⟩, hes⟩

theorem search_line_no_newline (l : List String) (h : ∀ e ∈ l, no_newline e) :
    no_newline (search_line l) := by
  have hs : '\n' ∉ (spaced l).data := spaced_no_newline l h
  simp only [no_newline, search_line, String.data_append, List.mem_append, not_or]
  exact ⟨by decide, hs⟩

theorem search_lines_no_newline (composite : NMIP4Config)
    (hd : ∀ d ∈ composite.domains, no_newline d)
    (hs : ∀ e ∈ composite.searches, no_newline e) :
    ∀ x ∈ search_lines composite, no_newline x := by
  intro x hx
  unfold search_lines at hx
  split_ifs at hx
  · simp at hx
  · simp only [List.mem_cons, List.mem_singleton, List.not_mem_nil, or_false] at hx
    rcases hx with rfl | rfl
    · exact search_line_no_newline _ hd
    · decide
  · simp only [List.mem_cons, List.mem_singleton, List.not_mem_nil, or_false] at hx
    rcases hx with rfl | rfl
    · exact search_line_no_newline _ hs
    · decide

theorem domain_lines_no_newline (composite : NMIP4Config)
    (hd : ∀ d ∈ composite.domains, no_newline d) :
    ∀ x ∈ domain_lines composite, no_newline x := by
  intro x hx
  unfold domain_lines at hx
  cases h : composite.domains with
  | nil => simp [h] at hx
  | cons d ds =>
    simp only [h, List.mem_cons, List.mem_singleton, List.not_mem_nil, or_false] at hx
    have hdn : '\n' ∉ d.data := hd d (by simp [h])
    rcases hx with rfl | rfl
    · simp only [no_newline, String.data_append, List.mem_append, not_or]
      exact ⟨by decide, hdn⟩
    · decide

/-- The lines of the text written by `rewrite_resolv_conf`, for a composite whose
domain and search entries hold no line break. -/
theorem lines_resolv_conf_text (composite : NMIP4Config)
    (hd : ∀ d ∈ composite.domains, no_newline d)
    (hs : ∀ e ∈ composite.searches, no_newline e) :
    lines (resolv_conf_text composite) = text_lines composite := by
  rw [resolv_conf_text_eq]
  apply lines_unlines
  intro x hx
  unfold text_lines at hx
  simp only [List.mem_append, List.mem_cons, List.mem_singleton, List.not_mem_nil,
    or_false] at hx
  rcases hx with (((((rfl | rfl) | hx) | hx) | hx) | rfl)
  · decide
  · decide
  · exact domain_lines_no_newline composite hd x hx
  · exact search_lines_no_newline composite hd hs x hx
  · exact nameserver_lines_no_newline _ x hx
  · decide

theorem filter_domain_nameserver_lines (l : List Nat) :
    (nameserver_lines l).filter (starts_with "domain ") = [] := by
  rw [List.filter_eq_nil_iff]
  intro x hx
  unfold nameserver_lines at hx
  have hline : ∀ a, ¬ (starts_with "domain " (nameserver_line a) = true) := by
    intro a
    simp [starts_with, nameserver_line, String.data_append]
  split_ifs at hx
  · simp only [List.mem_append, List.mem_map, List.mem_cons, List.not_mem_nil, or_false] at hx
    rcases hx with ⟨a, _, rfl⟩ | (rfl | rfl | rfl) | ⟨a, _, rfl⟩
    · exact hline a
    · decide
    · decide
    · decide
    · exact hline a
  · simp only [List.append_nil, List.mem_map] at hx
    obtain ⟨a, _, rfl⟩ := hx
    exact hline a

theorem filter_domain_search_lines (composite : NMIP4Config) :
    (search_lines composite).filter (starts_with "domain ") = [] := by
  rw [List.filter_eq_nil_iff]
  intro x hx
  have hline : ∀ l, ¬ (starts_with "domain " (search_line l) = true) := by
    intro l
    simp [starts_with, search_line, String.data_append]
  unfold search_lines at hx
  split_ifs at hx
  · simp at hx
  · simp only [List.mem_cons, List.mem_singleton, List.not_mem_nil, or_false] at hx
    rcases hx with rfl | rfl
    · exact hline _
    · decide
  · simp only [List.mem_cons, List.mem_singleton, List.not_mem_nil, or_false] at hx
    rcases hx with rfl | rfl
    · exact hline _
    · decide

theorem filter_domain_domain_lines (composite : NMIP4Config) :
    (domain_lines composite).filter (starts_with "domain ")
      = (match composite.domains with
         | [] => []
         | d :: _ => ["domain " ++ d]) := by
  unfold domain_lines
  cases composite.domains with
  | nil => rfl
  | cons d ds =>
    have h1 : starts_with "domain " ("domain " ++ d) = true := by
      simp [starts_with, String.data_append]
    have h2 : starts_with "domain " "" = false := by decide
    simp [List.filter_cons, h1, h2]

/-- C9, as amended: for a composite whose domain and search entries hold no line
break, the lines of the rendered text that start with `domain ` are none when the
composite has no domain, and otherwise the single line `domain ` followed by the
first domain of the composite. -/
theorem C9_domain_directive (composite : NMIP4Config)
    (hd : ∀ d ∈ composite.domains, no_newline d)
    (hs : ∀ e ∈ composite.searches, no_newline e) :
    (lines (resolv_conf_text composite)).filter (starts_with "domain ")
      = (match composite.domains with
         | [] => []
         | d :: _ => ["domain " ++ d]) := by
  rw [lines_resolv_conf_text composite hd hs]
  unfold text_lines
  have hh : (["# generated by NetworkManager, do not edit!", ""] : List String).filter
      (starts_with "domain ") = [] := by decide
  have ht : ([""] : List String).filter (starts_with "domain ") = [] := by decide
  rw [List.filter_append, List.filter_append, List.filter_append, List.filter_append, hh, ht,
    filter_domain_nameserver_lines, filter_domain_search_lines, filter_domain_domain_lines]
  simp

/-- Witness of C9: the composite of the spec, with the domains `x.com` and `y.com`. -/
theorem C9_domain_directive_witness :
    (lines (resolv_conf_text composite_xy)).filter (starts_with "domain ")
      = ["domain x.com"] :=
  C9_domain_directive composite_xy (by decide) (by decide)

/-- C9 fails as stated: a composite without any domain, whose search entry holds a
line break, is rendered with a line that starts with `domain `. -/
theorem C9_counterexample :
    composite_newline.domains = []
      ∧ (lines (resolv_conf_text composite_newline)).filter (starts_with "domain ")
          = ["domain b.com"] := by
  refine ⟨rfl, ?_⟩
  decide

/-! ## When the composite is a permutation of the active records -/

theorem slot_perm (l : List Ptr) (x : Ptr) (hnd : l.Nodup) (hnull : NULL ∉ l)
    (hx : x = NULL ∨ x ∈ l) :
    ((if x ≠ NULL then [x] else []) ++ l.filter (fun c => !decide (c = x))).Perm l := by
  have hf : (fun c : Ptr => !decide (c = x)) = (fun c => c != x) := by
    funext c
    by_cases hc : c = x <;> simp [bne, hc]
  by_cases h0 : x = NULL
  · subst h0
    have hall : ∀ a ∈ l, (!decide (a = NULL)) = true := by
      intro a ha
      have hne : a ≠ NULL := fun e => hnull (e ▸ ha)
      simp [hne]
    simp [List.filter_eq_self.mpr hall]
  · have hmem : x ∈ l := hx.resolve_left h0
    rw [if_pos h0, hf, ← hnd.erase_eq_filter x]
    exact (List.perm_cons_erase hmem).symm

/-- In a registry that satisfies the invariant and whose two role slots do not hold
the same record, the records merged are the records of `configs`, each once. -/
theorem merge_order_perm (priv : NMNamedManagerPrivate) (hinv : RegistryInv priv)
    (hdist : priv.vpn_config = NULL ∨ priv.vpn_config ≠ priv.device_config) :
    (merge_order priv).Perm priv.configs := by
  obtain ⟨hnd, hnull, hv, hd⟩ := hinv
  have hF : priv.configs.filter
      (fun config => !decide (config = priv.vpn_config ∨ config = priv.device_config))
      = (priv.configs.filter (fun c => !decide (c = priv.vpn_config))).filter
          (fun c => !decide (c = priv.device_config)) := by
    rw [List.filter_filter]
    congr 1
    funext c
    by_cases h1 : c = priv.vpn_config <;> by_cases h2 : c = priv.device_config <;>
      simp [h1, h2]
  have hnd1 : (priv.configs.filter (fun c => !decide (c = priv.vpn_config))).Nodup :=
    hnd.filter _
  have hnull1 : NULL ∉ priv.configs.filter (fun c => !decide (c = priv.vpn_config)) :=
    fun h => hnull (List.mem_of_mem_filter h)
  have hd1 : priv.device_config = NULL
      ∨ priv.device_config ∈ priv.configs.filter (fun c => !decide (c = priv.vpn_config)) := by
    by_cases h0 : priv.device_config = NULL
    · exact Or.inl h0
    · right
      have hmem : priv.device_config ∈ priv.configs := hd.resolve_left h0
      have hne : priv.device_config ≠ priv.vpn_config := by
        rcases hdist with h | h
        · rw [h]; exact h0
        · exact fun e => h e.symm
      simp [List.mem_filter, hmem, hne]
  unfold merge_order
  rw [hF, List.append_assoc]
  exact (List.Perm.append_left _ (slot_perm _ _ hnd1 hnull1 hd1)).trans
    (slot_perm _ _ hnd hnull hv)

/-- After any sequence of calls on a fresh manager that does not leave one record in
both role slots, the composite nameserver list is a permutation of the nameserver
lists of the records of `configs`, each taken once. -/
theorem composite_nameservers_perm (heap : Ptr → NMIP4Config) (fs : FileSystem)
    (calls : List (Call × Env))
    (hdist : (run heap (nm_named_manager_init, fs) calls).1.vpn_config = NULL
      ∨ (run heap (nm_named_manager_init, fs) calls).1.vpn_config
          ≠ (run heap (nm_named_manager_init, fs) calls).1.device_config) :
    (build_composite heap (run heap (nm_named_manager_init, fs) calls).1).nameservers.Perm
      (((run heap (nm_named_manager_init, fs) calls).1.configs.map
        (fun p => (heap p).nameservers)).flatten) := by
  rw [build_composite_nameservers]
  exact ((merge_order_perm _
    (registryInv_run heap calls (nm_named_manager_init, fs) registryInv_init) hdist).map
      _).flatten

/-! ## Register and Unregister on the registry -/

theorem remove_ip4_config_ret (env : Env) (heap : Ptr → NMIP4Config) (fs : FileSystem)
    (priv : NMNamedManagerPrivate) (config : Ptr) (h0 : config ≠ NULL)
    (h : config ∈ priv.configs) :
    (nm_named_manager_remove_ip4_config env heap fs priv config).ret = true := by
  have hf : (!g_slist_find priv.configs config) = false := by simp [g_slist_find, h]
  unfold nm_named_manager_remove_ip4_config
  rw [if_neg h0]
  simp only [hf, Bool.false_eq_true, if_false]

theorem erase_eq_filter_ne (l : List Ptr) (hnd : l.Nodup) (x : Ptr) :
    l.erase x = l.filter (fun c => decide (c ≠ x)) := by
  have hf : (fun c : Ptr => decide (c ≠ x)) = (fun c => c != x) := by
    funext c
    by_cases hc : c = x <;> simp [bne, hc]
  rw [hf]
  exact hnd.erase_eq_filter x

theorem erase_append_singleton (l : List Ptr) (x : Ptr) (h : x ∉ l) :
    (l ++ [x]).erase x = l := by
  induction l with
  | nil => simp
  | cons a l ih =>
    have hne : a ≠ x := fun e => h (by simp [e])
    have hl : x ∉ l := fun e => h (List.mem_cons_of_mem _ e)
    rw [List.cons_append, List.erase_cons_tail (by simpa using hne), ih hl]

theorem not_mem_merge_order (priv : NMNamedManagerPrivate) (hinv : RegistryInv priv)
    (config : Ptr) (h : config ∉ priv.configs) : config ∉ merge_order priv := by
  obtain ⟨_, hnull, hv, hd⟩ := hinv
  unfold merge_order
  simp only [List.mem_append, not_or]
  refine ⟨⟨?_, ?_⟩, fun hm => h (List.mem_of_mem_filter hm)⟩
  · by_cases h0 : priv.vpn_config = NULL
    · simp [h0]
    · have hm : priv.vpn_config ∈ priv.configs := hv.resolve_left h0
      simp only [ne_eq, h0, not_false_eq_true, if_true, List.mem_singleton]
      exact fun e => h (e ▸ hm)
  · by_cases h0 : priv.device_config = NULL
    · simp [h0]
    · have hm : priv.device_config ∈ priv.configs := hd.resolve_left h0
      simp only [ne_eq, h0, not_false_eq_true, if_true, List.mem_singleton]
      exact fun e => h (e ▸ hm)

/-- C13: in a reachable registry, Unregister of a record of `configs` returns TRUE and
leaves a registry in which the record is no longer in `configs`, `vpn_config` is
unset if it was the record and is unchanged otherwise, `device_config` likewise, and
`configs` holds the other records in the order they had. -/
theorem C13_remove_member (env : Env) (heap : Ptr → NMIP4Config) (fs : FileSystem)
    (priv : NMNamedManagerPrivate) (config : Ptr) (hreach : Reachable heap priv)
    (hmem : config ∈ priv.configs) :
    (nm_named_manager_remove_ip4_config env heap fs priv config).ret = true
      ∧ config ∉ (nm_named_manager_remove_ip4_config env heap fs priv config).priv.configs
      ∧ (nm_named_manager_remove_ip4_config env heap fs priv config).priv.vpn_config
          = (if priv.vpn_config = config then NULL else priv.vpn_config)
      ∧ (nm_named_manager_remove_ip4_config env heap fs priv config).priv.device_config
          = (if priv.device_config = config then NULL else priv.device_config)
      ∧ (nm_named_manager_remove_ip4_config env heap fs priv config).priv.configs
          = priv.configs.filter (fun c => decide (c ≠ config)) := by
  obtain ⟨hnd, hnull, _, _⟩ := registryInv_of_reachable heap priv hreach
  have h0 : config ≠ NULL := fun e => hnull (e ▸ hmem)
  rw [remove_ip4_config_priv env heap fs priv config h0 hmem]
  refine ⟨remove_ip4_config_ret env heap fs priv config h0 hmem, ?_, ?_, ?_, ?_⟩
  · simp only [hnd.mem_erase_iff]
    exact fun h => h.1 rfl
  · by_cases hv : priv.vpn_config = config
    · simp [hv]
    · have hv' : ¬ config = priv.vpn_config := fun e => hv e.symm
      simp [hv, hv']
  · by_cases hd : priv.device_config = config
    · simp [hd]
    · have hd' : ¬ config = priv.device_config := fun e => hd e.symm
      simp [hd, hd']
  · exact erase_eq_filter_ne _ hnd _

/-- Witness of C13: record `1`, registered as VPN, is unregistered. -/
theorem C13_remove_member_witness :
    (nm_named_manager_remove_ip4_config env_ok example_heap fs_empty
        { vpn_config := 1, device_config := 0, configs := [1], disposed := false } 1).ret
      = true :=
  (C13_remove_member env_ok example_heap fs_empty
    { vpn_config := 1, device_config := 0, configs := [1], disposed := false } 1
    ⟨fs_empty, [(Call.add_ip4_config 1 NM_NAMED_IP_CONFIG_TYPE_VPN, env_ok)], by decide⟩
    (by decide)).1

/-- C14: Register of a record, made twice in a row with the same role, leaves the
same `vpn_config`, `device_config` and `configs` as made once; Register of a record
that is already in `configs` leaves `configs` as it was, and Register of a (non-null)
record that is not in `configs` appends it at the end. -/
theorem C14_add_idempotent (env env' : Env) (heap : Ptr → NMIP4Config) (fs : FileSystem)
    (priv : NMNamedManagerPrivate) (config : Ptr) (cfg_type : NMNamedIPConfigType) :
    (nm_named_manager_add_ip4_config env' heap
        (nm_named_manager_add_ip4_config env heap fs priv config cfg_type).fs
        (nm_named_manager_add_ip4_config env heap fs priv config cfg_type).priv
        config cfg_type).priv
      = (nm_named_manager_add_ip4_config env heap fs priv config cfg_type).priv
    ∧ (config ∈ priv.configs →
        (nm_named_manager_add_ip4_config env heap fs priv config cfg_type).priv.configs
          = priv.configs)
    ∧ (config ≠ NULL → config ∉ priv.configs →
        (nm_named_manager_add_ip4_config env heap fs priv config cfg_type).priv.configs
          = priv.configs ++ [config]) := by
  by_cases h : config = NULL
  · subst h
    simp [add_ip4_config_null]
  · rw [add_ip4_config_priv env' heap _ _ config cfg_type h,
      add_ip4_config_priv env heap fs priv config cfg_type h]
    refine ⟨?_, fun hm => by simp [hm], fun _ hm => by simp [hm]⟩
    by_cases hm : config ∈ priv.configs <;> cases cfg_type <;> simp [hm]

/-- Witness of C14: record `2` is registered as best device on a fresh manager, and is
appended to the empty `configs`. -/
theorem C14_add_idempotent_witness :
    (nm_named_manager_add_ip4_config env_body_fails example_heap fs_empty
        nm_named_manager_init 2 NM_NAMED_IP_CONFIG_TYPE_BEST_DEVICE).priv.configs
      = nm_named_manager_init.configs ++ [2] :=
  (C14_add_idempotent env_body_fails env_ok example_heap fs_empty nm_named_manager_init 2
    NM_NAMED_IP_CONFIG_TYPE_BEST_DEVICE).2.2 (by decide) (by decide)

/-- C16: in a reachable registry, Register of a record that is not in `configs` as a
plain record, followed by Unregister of that record, leaves the registry as it was
(`vpn_config`, `device_config` and `configs` with its order); the text rendered from
the registry is then the text rendered before, and the record is not among the
records merged. -/
theorem C16_add_remove_round_trip (env₁ env₂ : Env) (heap : Ptr → NMIP4Config)
    (fs : FileSystem) (priv : NMNamedManagerPrivate) (config : Ptr)
    (hreach : Reachable heap priv) (hnot : config ∉ priv.configs) :
    (nm_named_manager_remove_ip4_config env₂ heap
        (nm_named_manager_add_ip4_config env₁ heap fs priv config
          NM_NAMED_IP_CONFIG_TYPE_DEFAULT).fs
        (nm_named_manager_add_ip4_config env₁ heap fs priv config
          NM_NAMED_IP_CONFIG_TYPE_DEFAULT).priv config).priv = priv
    ∧ resolv_conf_text (build_composite heap
        (nm_named_manager_remove_ip4_config env₂ heap
          (nm_named_manager_add_ip4_config env₁ heap fs priv config
            NM_NAMED_IP_CONFIG_TYPE_DEFAULT).fs
          (nm_named_manager_add_ip4_config env₁ heap fs priv config
            NM_NAMED_IP_CONFIG_TYPE_DEFAULT).priv config).priv)
        = resolv_conf_text (build_composite heap priv)
    ∧ config ∉ merge_order
        (nm_named_manager_remove_ip4_config env₂ heap
          (nm_named_manager_add_ip4_config env₁ heap fs priv config
            NM_NAMED_IP_CONFIG_TYPE_DEFAULT).fs
          (nm_named_manager_add_ip4_config env₁ heap fs priv config
            NM_NAMED_IP_CONFIG_TYPE_DEFAULT).priv config).priv := by
  have hinv := registryInv_of_reachable heap priv hreach
  have hstate : (nm_named_manager_remove_ip4_config env₂ heap
        (nm_named_manager_add_ip4_config env₁ heap fs priv config
          NM_NAMED_IP_CONFIG_TYPE_DEFAULT).fs
        (nm_named_manager_add_ip4_config env₁ heap fs priv config
          NM_NAMED_IP_CONFIG_TYPE_DEFAULT).priv config).priv = priv := by
    by_cases h0 : config = NULL
    · subst h0
      rw [add_ip4_config_null]
      simp [nm_named_manager_remove_ip4_config]
    · obtain ⟨_, _, hv, hd⟩ := hinv
      have hv' : ¬ config = priv.vpn_config := by
        intro e
        rcases hv with hv | hv
        · exact h0 (e.trans hv)
        · exact hnot (e ▸ hv)
      have hd' : ¬ config = priv.device_config := by
        intro e
        rcases hd with hd | hd
        · exact h0 (e.trans hd)
        · exact hnot (e ▸ hd)
      rw [add_ip4_config_priv env₁ heap fs priv config _ h0]
      rw [remove_ip4_config_priv env₂ heap _ _ config h0 (by simp [hnot])]
      simp [hnot, hv', hd', erase_append_singleton _ _ hnot]
  rw [hstate]
  exact ⟨rfl, rfl, not_mem_merge_order priv hinv config hnot⟩

/-- Witness of C16: record `3` comes and goes while record `1` is the VPN record. -/
theorem C16_add_remove_round_trip_witness :
    (nm_named_manager_remove_ip4_config env_ok example_heap
        (nm_named_manager_add_ip4_config env_ok example_heap fs_empty
          { vpn_config := 1, device_config := 0, configs := [1], disposed := false } 3
          NM_NAMED_IP_CONFIG_TYPE_DEFAULT).fs
        (nm_named_manager_add_ip4_config env_ok example_heap fs_empty
          { vpn_config := 1, device_config := 0, configs := [1], disposed := false } 3
          NM_NAMED_IP_CONFIG_TYPE_DEFAULT).priv 3).priv
      = { vpn_config := 1, device_config := 0, configs := [1], disposed := false } :=
  (C16_add_remove_round_trip env_ok env_ok example_heap fs_empty
    { vpn_config := 1, device_config := 0, configs := [1], disposed := false } 3
    ⟨fs_empty, [(Call.add_ip4_config 1 NM_NAMED_IP_CONFIG_TYPE_VPN, env_ok)], by decide⟩
    (by decide)).1

/-- C20: on a fresh manager, Register of `R1` as VPN followed by Register of another
record `R2` as VPN leaves `vpn_config = R2` and `configs = [R1, R2]`; the composite
nameserver list is the nameservers of `R2` followed by those of `R1`. -/
theorem C20_overwrite_vpn_slot (env₁ env₂ : Env) (heap : Ptr → NMIP4Config)
    (fs : FileSystem) (R1 R2 : Ptr) (h1 : R1 ≠ NULL) (h2 : R2 ≠ NULL) (h12 : R1 ≠ R2) :
    (run heap (nm_named_manager_init, fs)
        [(Call.add_ip4_config R1 NM_NAMED_IP_CONFIG_TYPE_VPN, env₁),
         (Call.add_ip4_config R2 NM_NAMED_IP_CONFIG_TYPE_VPN, env₂)]).1.vpn_config = R2
    ∧ (run heap (nm_named_manager_init, fs)
        [(Call.add_ip4_config R1 NM_NAMED_IP_CONFIG_TYPE_VPN, env₁),
         (Call.add_ip4_config R2 NM_NAMED_IP_CONFIG_TYPE_VPN, env₂)]).1.configs = [R1, R2]
    ∧ (build_composite heap (run heap (nm_named_manager_init, fs)
        [(Call.add_ip4_config R1 NM_NAMED_IP_CONFIG_TYPE_VPN, env₁),
         (Call.add_ip4_config R2 NM_NAMED_IP_CONFIG_TYPE_VPN, env₂)]).1).nameservers
      = (heap R2).nameservers ++ (heap R1).nameservers := by
  have h21 : R2 ≠ R1 := fun e => h12 e.symm
  have hN : NULL ≠ R1 := fun e => h1 e.symm
  rw [build_composite_nameservers]
  simp [run_cons, run_nil, do_call_add_priv, nm_named_manager_init, merge_order,
    List.filter_cons, h1, h2, h12, h21, hN]

/-- Witness of C20: records `1` and `2` of the example heap. -/
theorem C20_overwrite_vpn_slot_witness :
    (run example_heap (nm_named_manager_init, fs_empty)
        [(Call.add_ip4_config 1 NM_NAMED_IP_CONFIG_TYPE_VPN, env_ok),
         (Call.add_ip4_config 2 NM_NAMED_IP_CONFIG_TYPE_VPN, env_ok)]).1.configs = [1, 2] :=
  (C20_overwrite_vpn_slot env_ok env_ok example_heap fs_empty 1 2 (by decide) (by decide)
    (by decide)).2.1

/-! ## Outcome of the publish protocol -/

/-- C15: `rewrite_resolv_conf` calls `nm_system_update_dns` exactly when the policy
permits publishing and the open, both writes, the close and the rename all succeed,
and then once; it returns success exactly in that case and in the case where the
policy forbids publishing. -/
theorem C15_update_dns_iff (env : Env) (heap : Ptr → NMIP4Config) (fs : FileSystem)
    (priv : NMNamedManagerPrivate) :
    (Event.nm_system_update_dns ∈ (rewrite_resolv_conf env heap fs priv).trace
        ↔ (env.should_modify_resolv_conf = true ∧ env.fopen = none
            ∧ env.fprintf_header = none ∧ env.fprintf_body = none ∧ env.fclose = none
            ∧ env.rename = none))
      ∧ ((rewrite_resolv_conf env heap fs priv).trace.count Event.nm_system_update_dns ≤ 1)
      ∧ ((rewrite_resolv_conf env heap fs priv).ret = true
        ↔ (env.should_modify_resolv_conf = false
            ∨ (env.should_modify_resolv_conf = true ∧ env.fopen = none
                ∧ env.fprintf_header = none ∧ env.fprintf_body = none ∧ env.fclose = none
                ∧ env.rename = none))) := by
  obtain ⟨sm, fo, fh, fb, fc, rn, torn⟩ := env
  cases sm <;> cases fo <;> cases fh <;> cases fb <;> cases fc <;> cases rn <;>
    simp [rewrite_resolv_conf, g_set_error]

/-- C18: a call of `rewrite_resolv_conf` that returns failure reports one error, of
kind `NM_NAMED_MANAGER_ERROR_SYSTEM`, whose message is that of the first step that
failed; when the body write fails the close is still attempted and the error reported
is the write error, whatever the close does; the close error is the one reported when
the close fails after the open and both writes succeeded. -/
theorem C18_error_precedence (env : Env) (heap : Ptr → NMIP4Config) (fs : FileSystem)
    (priv : NMNamedManagerPrivate) :
    ((rewrite_resolv_conf env heap fs priv).ret = false →
        ∃ message, first_failure env = some message
          ∧ (rewrite_resolv_conf env heap fs priv).error
              = some { code := NM_NAMED_MANAGER_ERROR_SYSTEM, message := message })
      ∧ (∀ errno, env.should_modify_resolv_conf = true → env.fopen = none →
          env.fprintf_header = none → env.fprintf_body = some errno →
          Event.fclose ∈ (rewrite_resolv_conf env heap fs priv).trace
            ∧ (rewrite_resolv_conf env heap fs priv).error
                = some { code := NM_NAMED_MANAGER_ERROR_SYSTEM,
                         message := "Could not write to " ++ RESOLV_CONF ++ ": " ++ errno
                           ++ "\n" })
      ∧ (∀ errno, env.should_modify_resolv_conf = true → env.fopen = none →
          env.fprintf_header = none → env.fprintf_body = none → env.fclose = some errno →
          (rewrite_resolv_conf env heap fs priv).error
            = some { code := NM_NAMED_MANAGER_ERROR_SYSTEM,
                     message := "Could not close " ++ RESOLV_CONF ++ ": " ++ errno
                       ++ "\n" }) := by
  obtain ⟨sm, fo, fh, fb, fc, rn, torn⟩ := env
  cases sm <;> cases fo <;> cases fh <;> cases fb <;> cases fc <;> cases rn <;>
    simp [rewrite_resolv_conf, g_set_error, first_failure]

/-- Witness of C18: the body write fails for lack of space and the close fails too;
the error reported is the write error. -/
theorem C18_error_precedence_witness :
    Event.fclose ∈ (rewrite_resolv_conf env_body_and_close_fail example_heap fs_old
        nm_named_manager_init).trace
      ∧ (rewrite_resolv_conf env_body_and_close_fail example_heap fs_old
          nm_named_manager_init).error
        = some { code := NM_NAMED_MANAGER_ERROR_SYSTEM,
                 message := "Could not write to " ++ RESOLV_CONF ++ ": "
                   ++ "No space left on device" ++ "\n" } :=
  (C18_error_precedence env_body_and_close_fail example_heap fs_old
    nm_named_manager_init).2.1 "No space left on device" rfl rfl rfl rfl

theorem rewrite_resolv_conf_published (env : Env) (heap : Ptr → NMIP4Config)
    (fs : FileSystem) (priv : NMNamedManagerPrivate)
    (hok : env.should_modify_resolv_conf = true ∧ env.fopen = none
      ∧ env.fprintf_header = none ∧ env.fprintf_body = none ∧ env.fclose = none
      ∧ env.rename = none) :
    (rewrite_resolv_conf env heap fs priv).fs.resolv_conf
      = some (resolv_conf_text (build_composite heap priv)) := by
  obtain ⟨sm, fo, fh, fb, fc, rn, torn⟩ := env
  obtain ⟨h1, h2, h3, h4, h5, h6⟩ := hok
  simp only at h1 h2 h3 h4 h5 h6
  subst h1 h2 h3 h4 h5 h6
  simp [rewrite_resolv_conf, fs_write, resolv_conf_text, resolv_conf_body,
    String.append_assoc]

/-- C17, as amended: when every step of the publish succeeds, the text that
`rewrite_resolv_conf` installs is the text rendered from the composite of the
registry; for every composite whose domain and search entries hold no line break, the
lines of the rendered text are the header line and a blank line, then the domain line
and a blank line (if the composite has a domain), then the search line and a blank
line (if there is one), then the lines of the nameserver block, then a blank line, and
the text is these lines, each ended by a newline; for the registry of a fresh manager
the text is the header line followed by two empty lines. -/
theorem C17_file_structure (env : Env) (heap : Ptr → NMIP4Config) (fs : FileSystem)
    (priv : NMNamedManagerPrivate)
    (hok : env.should_modify_resolv_conf = true ∧ env.fopen = none
      ∧ env.fprintf_header = none ∧ env.fprintf_body = none ∧ env.fclose = none
      ∧ env.rename = none) :
    (rewrite_resolv_conf env heap fs priv).fs.resolv_conf
        = some (resolv_conf_text (build_composite heap priv))
      ∧ (∀ composite : NMIP4Config,
          (∀ d ∈ composite.domains, no_newline d) →
          (∀ e ∈ composite.searches, no_newline e) →
          lines (resolv_conf_text composite)
              = ["# generated by NetworkManager, do not edit!", ""]
                  ++ domain_lines composite ++ search_lines composite
                  ++ nameserver_lines composite.nameservers ++ [""]
            ∧ resolv_conf_text composite
              = unlines
                  (["# generated by NetworkManager, do not edit!", ""]
                    ++ domain_lines composite ++ search_lines composite
                    ++ nameserver_lines composite.nameservers ++ [""]))
      ∧ (rewrite_resolv_conf env heap fs nm_named_manager_init).fs.resolv_conf
          = some "# generated by NetworkManager, do not edit!\n\n\n" := by
  refine ⟨rewrite_resolv_conf_published env heap fs priv hok, ?_, ?_⟩
  · intro composite hd hs
    exact ⟨lines_resolv_conf_text composite hd hs, resolv_conf_text_eq composite⟩
  · rw [rewrite_resolv_conf_published env heap fs nm_named_manager_init hok]
    have hempty : build_composite heap nm_named_manager_init = nm_ip4_config_new := by
      simp [build_composite, nm_named_manager_init]
    rw [hempty]
    decide

/-- Witness of C17: every step succeeds, and the composite is that of the spec, with
two domains, no search and five nameservers. -/
theorem C17_file_structure_witness :
    lines (resolv_conf_text composite_xy)
      = ["# generated by NetworkManager, do not edit!", ""]
          ++ domain_lines composite_xy ++ search_lines composite_xy
          ++ nameserver_lines composite_xy.nameservers ++ [""] :=
  ((C17_file_structure env_ok example_heap fs_old nm_named_manager_init
    ⟨rfl, rfl, rfl, rfl, rfl, rfl⟩).2.1 composite_xy (by decide) (by decide)).1

/-- C17 fails as stated: for a registry whose only record has the domain
`x.com`, a line break, `nameserver 6.6.6.6`, the installed text has the line
`nameserver 6.6.6.6` right after the line `domain x.com`, with no blank line between
them, and a `nameserver` line before the `search` line. -/
theorem C17_counterexample :
    (build_composite heap_newline_domain priv_one_plain).domains
        = ["x.com\nnameserver 6.6.6.6"]
      ∧ lines (((rewrite_resolv_conf env_ok heap_newline_domain fs_empty
          priv_one_plain).fs.resolv_conf).getD "")
        = ["# generated by NetworkManager, do not edit!", "", "domain x.com",
           "nameserver 6.6.6.6", "", "search x.com", "nameserver 6.6.6.6", "", ""] := by
  refine ⟨by decide, by decide⟩

/-! ## The nameserver lines of the rendered text -/

theorem filter_map_nameserver_line (l : List Nat) :
    (l.map nameserver_line).filter (starts_with "nameserver ") = l.map nameserver_line := by
  rw [List.filter_eq_self]
  intro x hx
  obtain ⟨a, _, rfl⟩ := List.mem_map.mp hx
  simp [starts_with, nameserver_line, String.data_append]

theorem filter_nameserver_nameserver_lines (l : List Nat) :
    (nameserver_lines l).filter (starts_with "nameserver ") = l.map nameserver_line := by
  have hw : (["", warning_note, warning_below] : List String).filter
      (starts_with "nameserver ") = [] := by decide
  unfold nameserver_lines
  split_ifs with h
  · rw [List.filter_append, List.filter_append, filter_map_nameserver_line,
      filter_map_nameserver_line, hw, List.nil_append, ← List.map_append,
      List.take_append_drop]
  · rw [List.append_nil, filter_map_nameserver_line, List.take_of_length_le (by omega)]

theorem filter_nameserver_search_lines (composite : NMIP4Config) :
    (search_lines composite).filter (starts_with "nameserver ") = [] := by
  rw [List.filter_eq_nil_iff]
  intro x hx
  have hline : ∀ l, ¬ (starts_with "nameserver " (search_line l) = true) := by
    intro l
    simp [starts_with, search_line, String.data_append]
  unfold search_lines at hx
  split_ifs at hx
  · simp at hx
  · simp only [List.mem_cons, List.mem_singleton, List.not_mem_nil, or_false] at hx
    rcases hx with rfl | rfl
    · exact hline _
    · decide
  · simp only [List.mem_cons, List.mem_singleton, List.not_mem_nil, or_false] at hx
    rcases hx with rfl | rfl
    · exact hline _
    · decide

theorem filter_nameserver_domain_lines (composite : NMIP4Config) :
    (domain_lines composite).filter (starts_with "nameserver ") = [] := by
  unfold domain_lines
  cases composite.domains with
  | nil => rfl
  | cons d ds =>
    have h1 : starts_with "nameserver " ("domain " ++ d) = false := by
      simp [starts_with, String.data_append]
    have h2 : starts_with "nameserver " "" = false := by decide
    simp [List.filter_cons, h1, h2]

/-- C11, as amended: for a composite whose domain and search entries hold no line
break, the lines of the rendered text that start with `nameserver ` are, in order,
the lines `nameserver ` followed by the formatted address of each nameserver of the
composite: as many lines as nameservers, none dropped, duplicates kept. -/
theorem C11_nameserver_lines (composite : NMIP4Config)
    (hd : ∀ d ∈ composite.domains, no_newline d)
    (hs : ∀ e ∈ composite.searches, no_newline e) :
    (lines (resolv_conf_text composite)).filter (starts_with "nameserver ")
        = composite.nameservers.map (fun a => "nameserver " ++ inet_ntop a)
      ∧ ((lines (resolv_conf_text composite)).filter (starts_with "nameserver ")).length
        = composite.nameservers.length := by
  have hfilter : (lines (resolv_conf_text composite)).filter (starts_with "nameserver ")
      = composite.nameservers.map nameserver_line := by
    rw [lines_resolv_conf_text composite hd hs]
    unfold text_lines
    have hh : (["# generated by NetworkManager, do not edit!", ""] : List String).filter
        (starts_with "nameserver ") = [] := by decide
    have ht : ([""] : List String).filter (starts_with "nameserver ") = [] := by decide
    rw [List.filter_append, List.filter_append, List.filter_append, List.filter_append, hh,
      ht, filter_nameserver_nameserver_lines, filter_nameserver_search_lines,
      filter_nameserver_domain_lines]
    simp
  refine ⟨hfilter, ?_⟩
  rw [hfilter, List.length_map]

/-- Witness of C11: the composite of the spec, with five nameservers. -/
theorem C11_nameserver_lines_witness :
    ((lines (resolv_conf_text composite_xy)).filter (starts_with "nameserver ")).length
      = composite_xy.nameservers.length :=
  (C11_nameserver_lines composite_xy (by decide) (by decide)).2

/-- C11 fails as stated: a composite without any nameserver, whose search entry holds
a line break, is rendered with a line that starts with `nameserver `. -/
theorem C11_counterexample :
    composite_newline_nameserver.nameservers.length = 0
      ∧ (lines (resolv_conf_text composite_newline_nameserver)).filter
          (starts_with "nameserver ") = ["nameserver 192.0.2.6"] := by
  refine ⟨rfl, ?_⟩
  decide

/-! ## The search list of the composite and the search line -/

theorem merge_one_keeps_search (dst src : NMIP4Config)
    (h : dst.domains ≠ [] → dst.searches ≠ []) :
    (merge_one_ip4_config dst src).domains ≠ [] →
      (merge_one_ip4_config dst src).searches ≠ [] := by
  rw [merge_one_ip4_config_eq]
  simp only
  intro hdom
  by_cases hd : dst.domains = []
  · have hs : src.domains ≠ [] := by
      intro e
      apply hdom
      simp [hd, e]
    have hc : search_contribution src ≠ [] := by
      unfold search_contribution
      split_ifs with h1
      · exact hs
      · exact h1
    simp [hc]
  · simp [h hd]

theorem merge_all_keeps_search (heap : Ptr → NMIP4Config) (order : List Ptr)
    (dst : NMIP4Config) (h : dst.domains ≠ [] → dst.searches ≠ []) :
    (merge_all heap dst order).domains ≠ [] → (merge_all heap dst order).searches ≠ [] := by
  induction order generalizing dst with
  | nil => exact h
  | cons a l ih =>
    have hstep : merge_all heap dst (a :: l)
        = merge_all heap (merge_one_ip4_config dst (heap a)) l := rfl
    rw [hstep]
    exact ih _ (merge_one_keeps_search dst (heap a) h)

/-- The composite of a registry has a search entry as soon as it has a domain. -/
theorem build_composite_search_of_domain (heap : Ptr → NMIP4Config)
    (priv : NMNamedManagerPrivate) :
    (build_composite heap priv).domains ≠ [] → (build_composite heap priv).searches ≠ [] := by
  rw [build_composite_eq_merge_all]
  exact merge_all_keeps_search heap _ _ (fun h => absurd rfl h)

theorem starts_with_search_line (e : String) (es : List String) :
    starts_with "search " (search_line (e :: es)) = true := by
  simp [starts_with, search_line, spaced, String.data_append]

theorem filter_search_search_lines (composite : NMIP4Config) :
    (search_lines composite).filter (starts_with "search ")
      = (if composite.searches = [] then
           (if composite.domains = [] then [] else [search_line composite.domains])
         else [search_line composite.searches]) := by
  have h2 : starts_with "search " "" = false := by decide
  unfold search_lines
  cases hs : composite.searches with
  | nil =>
    cases hd : composite.domains with
    | nil => simp
    | cons d ds => simp [List.filter_cons, starts_with_search_line, h2]
  | cons e es => simp [List.filter_cons, starts_with_search_line, h2]

theorem filter_search_nameserver_lines (l : List Nat) :
    (nameserver_lines l).filter (starts_with "search ") = [] := by
  rw [List.filter_eq_nil_iff]
  intro x hx
  have hline : ∀ a, ¬ (starts_with "search " (nameserver_line a) = true) := by
    intro a
    simp [starts_with, nameserver_line, String.data_append]
  unfold nameserver_lines at hx
  split_ifs at hx
  · simp only [List.mem_append, List.mem_map, List.mem_cons, List.not_mem_nil, or_false] at hx
    rcases hx with ⟨a, _, rfl⟩ | (rfl | rfl | rfl) | ⟨a, _, rfl⟩
    · exact hline a
    · decide
    · decide
    · decide
    · exact hline a
  · simp only [List.append_nil, List.mem_map] at hx
    obtain ⟨a, _, rfl⟩ := hx
    exact hline a

theorem filter_search_domain_lines (composite : NMIP4Config) :
    (domain_lines composite).filter (starts_with "search ") = [] := by
  unfold domain_lines
  cases composite.domains with
  | nil => rfl
  | cons d ds =>
    have h1 : starts_with "search " ("domain " ++ d) = false := by
      simp [starts_with, String.data_append]
    have h2 : starts_with "search " "" = false := by decide
    simp [List.filter_cons, h1, h2]

/-- C12, as amended: for a registry whose composite holds no line break in its domain
and search entries, the lines of the text rendered by `rewrite_resolv_conf` that start
with `search ` are none when the composite search list is empty, and otherwise the
single line made of `search` followed by every composite search entry, each preceded
by one space, in the order of the composite. -/
theorem C12_search_directive (heap : Ptr → NMIP4Config) (priv : NMNamedManagerPrivate)
    (hd : ∀ d ∈ (build_composite heap priv).domains, no_newline d)
    (hs : ∀ e ∈ (build_composite heap priv).searches, no_newline e) :
    (lines (resolv_conf_text (build_composite heap priv))).filter (starts_with "search ")
      = (if (build_composite heap priv).searches = [] then []
         else ["search" ++ spaced (build_composite heap priv).searches]) := by
  rw [lines_resolv_conf_text _ hd hs]
  unfold text_lines
  have hh : (["# generated by NetworkManager, do not edit!", ""] : List String).filter
      (starts_with "search ") = [] := by decide
  have ht : ([""] : List String).filter (starts_with "search ") = [] := by decide
  rw [List.filter_append, List.filter_append, List.filter_append, List.filter_append, hh,
    ht, filter_search_nameserver_lines, filter_search_search_lines,
    filter_search_domain_lines]
  by_cases h : (build_composite heap priv).searches = []
  · have hdom : (build_composite heap priv).domains = [] := by
      by_contra hne
      exact build_composite_search_of_domain heap priv hne h
    simp [h, hdom]
  · simp [h, search_line]

/-- Witness of C12: the VPN record `1` has a domain and no search, the plain record
`2` has two searches. -/
theorem C12_search_directive_witness :
    (lines (resolv_conf_text (build_composite example_heap priv_vpn_and_plain))).filter
        (starts_with "search ")
      = (if (build_composite example_heap priv_vpn_and_plain).searches = [] then []
         else ["search" ++ spaced (build_composite example_heap priv_vpn_and_plain).searches]) :=
  C12_search_directive example_heap priv_vpn_and_plain (by decide) (by decide)

/-- C12 fails as stated: a registry whose only record has one search entry holding a
line break is rendered with two lines that start with `search `, none of which holds
the whole entry. -/
theorem C12_counterexample :
    (build_composite heap_newline priv_one_plain).searches = ["a.com\nsearch b.com"]
      ∧ (lines (resolv_conf_text (build_composite heap_newline priv_one_plain))).filter
          (starts_with "search ") = ["search a.com", "search b.com"] := by
  refine ⟨by decide, by decide⟩

/-! ## Lines of a text whose entries may hold line breaks -/

theorem lines_of_chars_ne_nil (c : Char) (cs : List Char) : lines_of_chars (c :: cs) ≠ [] := by
  unfold lines_of_chars
  split_ifs
  · simp
  · cases lines_of_chars cs <;> simp

theorem lines_of_chars_append_terminated (p q : List Char) :
    lines_of_chars (p ++ '\n' :: q) = lines_of_chars (p ++ ['\n']) ++ lines_of_chars q := by
  induction p with
  | nil => simp [lines_of_chars]
  | cons c p ih =>
    by_cases hc : c = '\n'
    · simp [lines_of_chars, hc, ih]
    · have hne : lines_of_chars (p ++ ['\n']) ≠ [] := by
        cases p with
        | nil => simp [lines_of_chars]
        | cons a p => exact lines_of_chars_ne_nil a _
      obtain ⟨l, ls, hl⟩ := List.exists_cons_of_ne_nil hne
      simp [lines_of_chars, hc, ih, hl]

theorem lines_of_chars_unlines_append (ls : List String) (t : List Char) :
    lines_of_chars ((unlines ls).data ++ t)
      = lines_of_chars (unlines ls).data ++ lines_of_chars t := by
  induction ls with
  | nil => simp [unlines, lines_of_chars]
  | cons l ls ih =>
    have hd : (unlines (l :: ls)).data = l.data ++ '\n' :: (unlines ls).data := by
      simp [unlines, String.data_append]
    rw [hd, List.append_assoc, List.cons_append, lines_of_chars_append_terminated,
      lines_of_chars_append_terminated l.data (unlines ls).data, ih, List.append_assoc]

theorem lines_of_chars_head (k r : List Char) (hk : '\n' ∉ k) (hne : k ≠ []) :
    ∃ l ls, lines_of_chars (k ++ r) = l :: ls ∧ k <+: l := by
  induction k with
  | nil => exact absurd rfl hne
  | cons c k ih =>
    have hc : c ≠ '\n' := fun e => hk (by simp [e])
    have hk' : '\n' ∉ k := fun e => hk (List.mem_cons_of_mem _ e)
    by_cases hnil : k = []
    · subst hnil
      cases hr : lines_of_chars r with
      | nil => exact ⟨[c], [], by simp [lines_of_chars, hc, hr], List.prefix_refl _⟩
      | cons l ls =>
        exact ⟨c :: l, ls, by simp [lines_of_chars, hc, hr],
          by simp⟩
    · obtain ⟨l, ls, hl, hpre⟩ := ih hk' hnil
      refine ⟨c :: l, ls, ?_, ?_⟩
      · simp [lines_of_chars, hc, hl]
      · obtain ⟨t, rfl⟩ := hpre
        exact ⟨t, by simp⟩

/-- A composite with a search entry is rendered with a line that starts with
`search `, whatever its entries hold. -/
theorem exists_search_line (composite : NMIP4Config) (h : composite.searches ≠ []) :
    ∃ l ∈ lines (resolv_conf_text composite), starts_with "search " l = true := by
  obtain ⟨e, es, hes⟩ := List.exists_cons_of_ne_nil h
  have hsl : search_lines composite = [search_line (e :: es), ""] := by
    simp [search_lines, hes]
  have htext : (resolv_conf_text composite).data
      = (unlines
          (["# generated by NetworkManager, do not edit!", ""] ++ domain_lines composite)).data
        ++ ("search ".data
          ++ ((e ++ spaced es).data
            ++ '\n' :: (unlines ([""] ++ nameserver_lines composite.nameservers
              ++ [""])).data)) := by
    rw [resolv_conf_text_eq]
    unfold text_lines
    rw [hsl, unlines_append, unlines_append, unlines_append, unlines_append]
    simp [unlines, unlines_append, search_line, spaced, String.data_append]
  obtain ⟨l, ls, hl, hpre⟩ := lines_of_chars_head "search ".data
    ((e ++ spaced es).data
      ++ '\n' :: (unlines ([""] ++ nameserver_lines composite.nameservers ++ [""])).data)
    (by decide) (by decide)
  refine ⟨String.mk l, ?_, ?_⟩
  · unfold lines
    rw [htext, lines_of_chars_unlines_append, hl]
    simp
  · simp only [starts_with, decide_eq_true_eq]
    exact hpre

theorem filter_domain_text_lines (composite : NMIP4Config) :
    (text_lines composite).filter (starts_with "domain ")
      = (match composite.domains with
         | [] => []
         | d :: _ => ["domain " ++ d]) := by
  unfold text_lines
  have hh : (["# generated by NetworkManager, do not edit!", ""] : List String).filter
      (starts_with "domain ") = [] := by decide
  have ht : ([""] : List String).filter (starts_with "domain ") = [] := by decide
  rw [List.filter_append, List.filter_append, List.filter_append, List.filter_append, hh, ht,
    filter_domain_nameserver_lines, filter_domain_search_lines, filter_domain_domain_lines]
  simp

/-- A rendered text with a line that starts with `domain ` comes from a composite
that has a domain or a search entry. -/
theorem entries_of_domain_line (composite : NMIP4Config)
    (h : ∃ l ∈ lines (resolv_conf_text composite), starts_with "domain " l = true) :
    composite.domains ≠ [] ∨ composite.searches ≠ [] := by
  by_contra hne
  simp only [not_or, not_not] at hne
  obtain ⟨hd, hs⟩ := hne
  obtain ⟨l, hl, hstart⟩ := h
  rw [lines_resolv_conf_text composite (by simp [hd]) (by simp [hs])] at hl
  have hmem : l ∈ (text_lines composite).filter (starts_with "domain ") :=
    List.mem_filter.mpr ⟨hl, hstart⟩
  rw [filter_domain_text_lines, hd] at hmem
  simp at hmem

/-- C19: the composite built from a registry has a search entry whenever it has a
domain; the branch of `rewrite_resolv_conf` taken when the composite has a domain and
no search entry is therefore never taken, and a rendered text that has a line
starting with `domain ` also has a line starting with `search `. -/
theorem C19_search_whenever_domain (heap : Ptr → NMIP4Config)
    (priv : NMNamedManagerPrivate) :
    ((build_composite heap priv).domains ≠ [] → (build_composite heap priv).searches ≠ [])
      ∧ ¬ (nm_ip4_config_get_num_searches (build_composite heap priv) = 0
            ∧ nm_ip4_config_get_num_domains (build_composite heap priv) > 0)
      ∧ ((∃ l ∈ lines (resolv_conf_text (build_composite heap priv)),
            starts_with "domain " l = true)
          → ∃ l ∈ lines (resolv_conf_text (build_composite heap priv)),
              starts_with "search " l = true) := by
  have hkey := build_composite_search_of_domain heap priv
  refine ⟨hkey, ?_, ?_⟩
  · rintro ⟨h0, hpos⟩
    simp only [nm_ip4_config_get_num_searches, nm_ip4_config_get_num_domains] at h0 hpos
    exact hkey (List.length_pos.mp hpos) (List.length_eq_zero.mp h0)
  · intro hline
    apply exists_search_line
    rcases entries_of_domain_line _ hline with hd | hs
    · exact hkey hd
    · exact hs

/-- Witness of C19: the VPN record `1` has a domain and no search; the composite has a
search entry all the same. -/
theorem C19_search_whenever_domain_witness :
    (build_composite example_heap priv_vpn_and_plain).searches ≠ [] :=
  (C19_search_whenever_domain example_heap priv_vpn_and_plain).1 (by decide)

end NamedManager
